import Mathlib

/-!
# Relay strategy engine (core/naive-strategy.go)

A shallow embedding of the naive relay strategy: the sequence reconciler
(UnrelayedSequences, UnrelayedAcknowledgements), the message builders
(relayPackets, relayAcks) and the two relay operations (RelayPackets,
RelayAcknowledgements).

The collaborators (chain endpoints, header synchronizer) are records of
oracles.  Every function returns, next to its Go result, the trace of the
calls it made on its collaborators, so that "is never invoked" and "is handed
to Send" are statements about that trace.
-/

set_option autoImplicit false

namespace Relayer

/-! ## Go values -/

/-- A Go slice value: none is the nil slice, some l a non-nil slice holding l. -/
abbrev Slice (α : Type) := Option (List α)

/-- The elements of a slice, as ranged over by a for loop. -/
def Slice.toList {α : Type} : Slice α → List α
  | none => []
  | some l => l

/-- Go len(s): the nil slice has length 0. -/
def Slice.len {α : Type} (s : Slice α) : Nat := s.toList.length

/-- Go append(s, x): the result is never nil. -/
def Slice.append {α : Type} (s : Slice α) (x : α) : Slice α := some (s.toList ++ [x])

/-- A Go error value.  Collaborators return coded errors; nilResponse is the error built by
fmt.Errorf("no error on %s for %s, however response is nil", query, chainID). -/
inductive GoError where
  | external (code : Nat)
  | nilResponse (query : String) (chainID : String)
  deriving DecidableEq, Repr

/-! ## Data model -/

/-- A clienttypes.Height value. -/
structure Height where
  RevisionNumber : Nat
  RevisionHeight : Nat
  deriving DecidableEq, Repr

/-- A plain query context (QueryContext): an opaque height marker. -/
structure QueryContext where
  height : Height
  deriving DecidableEq, Repr

/-- A proof-bound query context (QueryProofContext): a type of its own, as in the source. -/
structure QueryProofContext where
  height : Height
  deriving DecidableEq, Repr

/-- A chantypes.Packet value. -/
structure Packet where
  Sequence : Nat
  SourcePort : String
  SourceChannel : String
  DestinationPort : String
  DestinationChannel : String
  Data : List Nat
  TimeoutHeight : Height
  TimeoutTimestamp : Nat
  deriving DecidableEq, Repr

/-- A chantypes.PacketState value: one entry of a commitments response. -/
structure PacketState where
  PortId : String
  ChannelId : String
  Sequence : Nat
  Data : List Nat
  deriving DecidableEq, Repr

/-- A chantypes.QueryPacketCommitmentsResponse value. -/
structure QueryPacketCommitmentsResponse where
  Commitments : List PacketState
  deriving DecidableEq, Repr

/-- A chantypes.QueryPacketAcknowledgementsResponse value. -/
structure QueryPacketAcknowledgementsResponse where
  Acknowledgements : List PacketState
  deriving DecidableEq, Repr

/-- A chantypes.QueryPacketCommitmentResponse value: commitment, proof and proof height. -/
structure QueryPacketCommitmentResponse where
  Commitment : List Nat
  Proof : List Nat
  ProofHeight : Height
  deriving DecidableEq, Repr

/-- A chantypes.QueryPacketAcknowledgementResponse value. -/
structure QueryPacketAcknowledgementResponse where
  Acknowledgement : List Nat
  Proof : List Nat
  ProofHeight : Height
  deriving DecidableEq, Repr

/-- An sdk.AccAddress; String() is its textual form. -/
structure AccAddress where
  bech32 : String
  deriving DecidableEq, Repr

/-- The sender.String() of the source. -/
def AccAddress.String (a : AccAddress) : String := a.bech32

/-- A light-client header (HeaderI), opaque to the strategy. -/
structure HeaderI where
  height : Height
  data : List Nat
  deriving DecidableEq, Repr

/-- The sdk.Msg values the strategy builds: chantypes.NewMsgRecvPacket,
chantypes.NewMsgAcknowledgement, and the update-client message of a path end. -/
inductive Msg where
  | MsgRecvPacket (packet : Packet) (proofCommitment : List Nat) (proofHeight : Height)
      (signer : String)
  | MsgAcknowledgement (packet : Packet) (acknowledgement : List Nat) (proofAcked : List Nat)
      (proofHeight : Height) (signer : String)
  | MsgUpdateClient (clientID : String) (header : HeaderI) (signer : String)
  deriving DecidableEq, Repr

/-- The RelaySequences of the source: two slices of sequence numbers. -/
structure RelaySequences where
  Src : Slice Nat
  Dst : Slice Nat
  deriving DecidableEq, Repr

/-- The path end of a chain (Path()): the identifiers the strategy reads. -/
structure PathEnd where
  ClientID : String
  PortID : String
  deriving DecidableEq, Repr

/-- Modelled from the spec: PathEnd.UpdateClients (core/pathEnd.go is not among the sources):
the synchronizer's headers become the ordered list of update messages, one per header,
signed by the given address. -/
def PathEnd.UpdateClients (pe : PathEnd) (hs : List HeaderI) (signer : AccAddress) : List Msg :=
  hs.map (fun h => Msg.MsgUpdateClient pe.ClientID h signer.String)

/-- A chain endpoint (ProvableChain) as a record of oracles.  A query answers either an error
or a value (a nil error comes with a usable result, which the source dereferences without a
check); the two commitment queries may also answer a nil response without error, and their
answer may change from one call to the next, so they take the ordinal of the call.  The
unreceived queries answer a slice, which may be nil.  Submit is the outcome of handing a
message list to the chain. -/
structure ProvableChain where
  ChainID : String
  Path : PathEnd
  GetAddress : Except GoError AccAddress
  QueryPacketCommitments :
    QueryContext → Nat → Nat → Nat → Except GoError (Option QueryPacketCommitmentsResponse)
  QueryPacketAcknowledgementCommitments :
    QueryContext → Nat → Nat → Nat → Except GoError (Option QueryPacketAcknowledgementsResponse)
  QueryUnrecievedPackets : QueryContext → List Nat → Except GoError (Slice Nat)
  QueryUnrecievedAcknowledgements : QueryContext → List Nat → Except GoError (Slice Nat)
  QueryPacket : QueryProofContext → Nat → Except GoError Packet
  QueryPacketCommitmentWithProof :
    QueryProofContext → Nat → Except GoError QueryPacketCommitmentResponse
  QueryPacketAcknowledgement : QueryProofContext → Nat → Except GoError (List Nat)
  QueryPacketAcknowledgementCommitmentWithProof :
    QueryProofContext → Nat → Except GoError QueryPacketAcknowledgementResponse
  Submit : List Msg → Bool

/-- The header synchronizer (SyncHeadersI) as a record of oracles. -/
structure SyncHeadersI where
  GetQueryContext : String → QueryContext
  GetQueryProofContext : String → QueryProofContext
  SetupHeadersForUpdate : ProvableChain → ProvableChain → Except GoError (List HeaderI)

/-- Which of the two chain arguments (src, dst) of a strategy operation a call is made on. -/
inductive Side where
  | src
  | dst
  deriving DecidableEq, Repr

/-- The observable calls of the strategy on its collaborators, and its relay reports. -/
inductive Event where
  | QueryPacketCommitments (chainID : String) (ctx : QueryContext) (offset limit : Nat)
  | QueryPacketAcknowledgementCommitments (chainID : String) (ctx : QueryContext)
      (offset limit : Nat)
  | QueryUnrecievedPackets (chainID : String) (ctx : QueryContext) (seqs : List Nat)
  | QueryUnrecievedAcknowledgements (chainID : String) (ctx : QueryContext) (seqs : List Nat)
  | Updates
  | QueryPacket (chainID : String) (ctx : QueryProofContext) (seq : Nat)
  | QueryPacketCommitmentWithProof (chainID : String) (ctx : QueryProofContext) (seq : Nat)
  | QueryPacketAcknowledgement (chainID : String) (ctx : QueryProofContext) (seq : Nat)
  | QueryPacketAcknowledgementCommitmentWithProof (chainID : String) (ctx : QueryProofContext)
      (seq : Nat)
  | SetupHeadersForUpdate (a b : Side)
  | Send (Src Dst : List Msg)
  | logPacketsRelayed (num : Nat) (dstChainID dstPortID srcChainID srcPortID : String)
  | logNothingToRelay
  deriving DecidableEq, Repr

/-- The (msgs, err) pair returned by a message builder, with the trace of its queries. -/
structure MsgsResult where
  msgs : Slice Msg
  err : Option GoError
  trace : List Event
  deriving DecidableEq, Repr

/-! ## Message builders -/

/-- The for loop of relayPackets: msgs is the slice built so far, tr the calls made so far. -/
def relayPacketsLoop (ctx : QueryProofContext) (chain : ProvableChain) (sender : AccAddress) :
    List Nat → Slice Msg → List Event → MsgsResult
  | [], msgs, tr => ⟨msgs, none, tr⟩
  | seq :: rest, msgs, tr =>
    match chain.QueryPacket ctx seq with
    | .error err => ⟨none, some err, tr ++ [Event.QueryPacket chain.ChainID ctx seq]⟩
    | .ok p =>
      match chain.QueryPacketCommitmentWithProof ctx seq with
      | .error err =>
        ⟨none, some err, tr ++ [Event.QueryPacket chain.ChainID ctx seq,
          Event.QueryPacketCommitmentWithProof chain.ChainID ctx seq]⟩
      | .ok res =>
        let msg := Msg.MsgRecvPacket p res.Proof res.ProofHeight sender.String
        relayPacketsLoop ctx chain sender rest (msgs.append msg)
          (tr ++ [Event.QueryPacket chain.ChainID ctx seq,
            Event.QueryPacketCommitmentWithProof chain.ChainID ctx seq])

/-- The relayPackets of the source: var msgs starts as the nil slice. -/
def relayPackets (ctx : QueryProofContext) (chain : ProvableChain) (seqs : List Nat)
    (sender : AccAddress) : MsgsResult :=
  relayPacketsLoop ctx chain sender seqs none []

/-- The for loop of relayAcks. -/
def relayAcksLoop (senderCtx receriverCtx : QueryProofContext)
    (senderChain receiverChain : ProvableChain) (sender : AccAddress) :
    List Nat → Slice Msg → List Event → MsgsResult
  | [], msgs, tr => ⟨msgs, none, tr⟩
  | seq :: rest, msgs, tr =>
    match senderChain.QueryPacket senderCtx seq with
    | .error err => ⟨none, some err, tr ++ [Event.QueryPacket senderChain.ChainID senderCtx seq]⟩
    | .ok p =>
      match receiverChain.QueryPacketAcknowledgement receriverCtx seq with
      | .error err =>
        ⟨none, some err, tr ++ [Event.QueryPacket senderChain.ChainID senderCtx seq,
          Event.QueryPacketAcknowledgement receiverChain.ChainID receriverCtx seq]⟩
      | .ok ack =>
        match receiverChain.QueryPacketAcknowledgementCommitmentWithProof receriverCtx seq with
        | .error err =>
          ⟨none, some err, tr ++ [Event.QueryPacket senderChain.ChainID senderCtx seq,
            Event.QueryPacketAcknowledgement receiverChain.ChainID receriverCtx seq,
            Event.QueryPacketAcknowledgementCommitmentWithProof receiverChain.ChainID
              receriverCtx seq]⟩
        | .ok res =>
          let msg := Msg.MsgAcknowledgement p ack res.Proof res.ProofHeight sender.String
          relayAcksLoop senderCtx receriverCtx senderChain receiverChain sender rest
            (msgs.append msg)
            (tr ++ [Event.QueryPacket senderChain.ChainID senderCtx seq,
              Event.QueryPacketAcknowledgement receiverChain.ChainID receriverCtx seq,
              Event.QueryPacketAcknowledgementCommitmentWithProof receiverChain.ChainID
                receriverCtx seq])

/-- The relayAcks of the source. -/
def relayAcks (senderCtx receriverCtx : QueryProofContext)
    (senderChain receiverChain : ProvableChain) (seqs : List Nat) (sender : AccAddress) :
    MsgsResult :=
  relayAcksLoop senderCtx receriverCtx senderChain receiverChain sender seqs none []

/-! ## Sequence reconciler -/

/-- The NaiveStrategy of the source. -/
structure NaiveStrategy where
  Ordered : Bool
  MaxTxSize : Nat
  MaxMsgLength : Nat
  deriving DecidableEq, Repr

/-- The RelayMsgs of the source (core/relayMsgs.go is not among the sources): the two
destination lists, the two limits, and the outcome of the last send. -/
structure RelayMsgs where
  Src : Slice Msg
  Dst : Slice Msg
  MaxTxSize : Nat
  MaxMsgLength : Nat
  Succeeded : Bool
  deriving DecidableEq, Repr

/-- Modelled from the spec: RelayMsgs.Ready, missing from the sources: true iff the union of
both destination lists is non-empty. -/
def RelayMsgs.Ready (r : RelayMsgs) : Bool := r.Src.len != 0 || r.Dst.len != 0

/-- Modelled from the spec: RelayMsgs.Send, missing from the sources: submit the src-bound
list to src and the dst-bound list to dst, each submission on its own; the send succeeded
iff neither submission reported an error. -/
def RelayMsgs.Send (r : RelayMsgs) (src dst : ProvableChain) : RelayMsgs :=
  let okSrc := src.Submit r.Src.toList
  let okDst := dst.Submit r.Dst.toList
  { r with Succeeded := okSrc && okDst }

/-- Modelled from the spec: RelayMsgs.Success, missing from the sources: true iff the send step
reported no error. -/
def RelayMsgs.Success (r : RelayMsgs) : Bool := r.Succeeded

/-- The logPacketsRelayed of the source: one report line with the count and both ends. -/
def logPacketsRelayed (src dst : ProvableChain) (num : Nat) : List Event :=
  [Event.logPacketsRelayed num dst.ChainID dst.Path.PortID src.ChainID src.Path.PortID]

/-- One "Prepend non-empty msg lists with UpdateClient" block (lines 167-180, 182-194,
364-376, 378-390): for the list bound for chain b, ask the synchronizer for the headers of
chain a and put the update messages in front.  The sides sa, sb name a and b in the trace. -/
def prependUpdateClients (sh : SyncHeadersI) (a b : ProvableChain) (sa sb : Side)
    (list : Slice Msg) : Slice Msg × Option GoError × List Event :=
  if list.len != 0 then
    match sh.SetupHeadersForUpdate a b with
    | .error err => (list, some err, [Event.SetupHeadersForUpdate sa sb])
    | .ok hs =>
      if hs.length > 0 then
        match b.GetAddress with
        | .error err => (list, some err, [Event.SetupHeadersForUpdate sa sb])
        | .ok addr =>
          (some (b.Path.UpdateClients hs addr ++ list.toList), none,
            [Event.SetupHeadersForUpdate sa sb])
      else (list, none, [Event.SetupHeadersForUpdate sa sb])
  else (list, none, [])

/-- The tail shared by RelayPackets (lines 160-206) and RelayAcknowledgements (lines 357-402):
return when the batch is not ready, prepend the update messages per destination, send, and
report the relayed counts after a successful send. -/
def prependAndSend (src dst : ProvableChain) (sh : SyncHeadersI) (msgs : RelayMsgs) :
    Option GoError × List Event :=
  if !msgs.Ready then (none, [Event.logNothingToRelay])
  else
    match prependUpdateClients sh src dst Side.src Side.dst msgs.Dst with
    | (_, some err, t1) => (some err, t1)
    | (dstList, none, t1) =>
      match prependUpdateClients sh dst src Side.dst Side.src msgs.Src with
      | (_, some err, t2) => (some err, t1 ++ t2)
      | (srcList, none, t2) =>
        let msgs1 : RelayMsgs := { msgs with Src := srcList, Dst := dstList }
        let msgs2 := msgs1.Send src dst
        let sendTr := [Event.Send msgs1.Src.toList msgs1.Dst.toList]
        if msgs2.Success then
          (none, t1 ++ t2 ++ sendTr
            ++ (if msgs2.Dst.len > 1 then logPacketsRelayed dst src (msgs2.Dst.len - 1) else [])
            ++ (if msgs2.Src.len > 1 then logPacketsRelayed src dst (msgs2.Src.len - 1) else []))
        else (none, t1 ++ t2 ++ sendTr)

/-- The RelayPackets of the source: the operation's error and the trace of its calls. -/
def RelayPackets (st : NaiveStrategy) (src dst : ProvableChain) (sp : RelaySequences)
    (sh : SyncHeadersI) : Option GoError × List Event :=
  match dst.GetAddress with
  | .error err => (some err, [])
  | .ok addr =>
    let srcCtx := sh.GetQueryProofContext src.ChainID
    let dstCtx := sh.GetQueryProofContext dst.ChainID
    let rd := relayPackets srcCtx src sp.Src.toList addr
    match rd.err with
    | some err => (some err, rd.trace)
    | none =>
      match src.GetAddress with
      | .error err => (some err, rd.trace)
      | .ok addr1 =>
        let rs := relayPackets dstCtx dst sp.Dst.toList addr1
        match rs.err with
        | some err => (some err, rd.trace ++ rs.trace)
        | none =>
          let msgs : RelayMsgs :=
            { Src := rs.msgs, Dst := rd.msgs, MaxTxSize := st.MaxTxSize,
              MaxMsgLength := st.MaxMsgLength, Succeeded := false }
          let r := prependAndSend src dst sh msgs
          (r.1, rd.trace ++ rs.trace ++ r.2)

/-- The RelayAcknowledgements of the source. -/
def RelayAcknowledgements (st : NaiveStrategy) (src dst : ProvableChain) (sp : RelaySequences)
    (sh : SyncHeadersI) : Option GoError × List Event :=
  match dst.GetAddress with
  | .error err => (some err, [])
  | .ok addr =>
    let srcCtx := sh.GetQueryProofContext src.ChainID
    let dstCtx := sh.GetQueryProofContext dst.ChainID
    let rd := relayAcks dstCtx srcCtx dst src sp.Src.toList addr
    match rd.err with
    | some err => (some err, rd.trace)
    | none =>
      match src.GetAddress with
      | .error err => (some err, rd.trace)
      | .ok addr1 =>
        let rs := relayAcks srcCtx dstCtx src dst sp.Dst.toList addr1
        match rs.err with
        | some err => (some err, rd.trace ++ rs.trace)
        | none =>
          let msgs : RelayMsgs :=
            { Src := rs.msgs, Dst := rd.msgs, MaxTxSize := st.MaxTxSize,
              MaxMsgLength := st.MaxMsgLength, Succeeded := false }
          let r := prependAndSend src dst sh msgs
          (r.1, rd.trace ++ rs.trace ++ r.2)

/-! ## The common shape of the two reconcilers

UnrelayedSequences and UnrelayedAcknowledgements are the same code up to the queries they
call; the definitions below state that shape once, and the lemmas relate each of the two
operations to it. -/

/-- The packet with the given sequence number sent on the example channel. -/
def examplePacket (seq : Nat) : Packet :=
  { Sequence := seq, SourcePort := "transfer", SourceChannel := "channel-0",
    DestinationPort := "transfer", DestinationChannel := "channel-1", Data := [seq],
    TimeoutHeight := ⟨0, 1000⟩, TimeoutTimestamp := 0 }

/-- The commitment entries for a list of sequence numbers. -/
def exampleStates (seqs : List Nat) : List PacketState :=
  seqs.map (fun s => { PortId := "transfer", ChannelId := "channel-0", Sequence := s, Data := [s] })

/-- An example endpoint.  Its commitment queries answer a nil response on the first nilCalls
calls and the committed sequences afterwards; its unreceived queries answer the candidates
outside received; its packet query fails for sequence 9, its commitment-proof query for
sequence 8, its acknowledgement query for sequence 10 and its acknowledgement-proof query for
sequence 11; GetAddress and Submit succeed as the two flags say. -/
def exampleChain (id : String) (committed received : List Nat) (nilCalls : Nat)
    (addrOk submitOk : Bool) : ProvableChain :=
  { ChainID := id
    Path := { ClientID := "client-of-" ++ id, PortID := "transfer" }
    GetAddress := if addrOk then .ok ⟨"addr-" ++ id⟩ else .error (.external 1)
    QueryPacketCommitments := fun _ _ _ call =>
      if call < nilCalls then .ok none else .ok (some ⟨exampleStates committed⟩)
    QueryPacketAcknowledgementCommitments := fun _ _ _ call =>
      if call < nilCalls then .ok none else .ok (some ⟨exampleStates committed⟩)
    QueryUnrecievedPackets := fun _ seqs => .ok (some (seqs.filter (fun s => !received.contains s)))
    QueryUnrecievedAcknowledgements := fun _ seqs =>
      .ok (some (seqs.filter (fun s => !received.contains s)))
    QueryPacket := fun _ seq => if seq = 9 then .error (.external 9) else .ok (examplePacket seq)
    QueryPacketCommitmentWithProof := fun ctx seq =>
      if seq = 8 then .error (.external 8) else .ok ⟨[seq], [seq, 1], ctx.height⟩
    QueryPacketAcknowledgement := fun _ seq =>
      if seq = 10 then .error (.external 10) else .ok [seq, 2]
    QueryPacketAcknowledgementCommitmentWithProof := fun ctx seq =>
      if seq = 11 then .error (.external 11) else .ok ⟨[seq, 2], [seq, 3], ctx.height⟩
    Submit := fun _ => submitOk }

/-- Endpoint A: committed 5, 6, 7, nothing received; healthy. -/
def chainA : ProvableChain := exampleChain "ibc0" [5, 6, 7] [] 0 true true

/-- Endpoint B: nothing committed, received 5; healthy. -/
def chainB : ProvableChain := exampleChain "ibc1" [] [5] 0 true true

/-- An example synchronizer: chain ibc0 is queried at height 100, any other chain at height
200, and every update needs k headers. -/
def exampleSync (k : Nat) : SyncHeadersI :=
  { GetQueryContext := fun id => if id = "ibc0" then ⟨⟨0, 100⟩⟩ else ⟨⟨0, 200⟩⟩
    GetQueryProofContext := fun id => if id = "ibc0" then ⟨⟨0, 99⟩⟩ else ⟨⟨0, 199⟩⟩
    SetupHeadersForUpdate := fun _ _ => .ok (List.replicate k ⟨⟨0, 100⟩, []⟩) }

/-- The strategy value built by NewNaiveStrategy. -/
def NewNaiveStrategy : NaiveStrategy := { Ordered := false, MaxTxSize := 0, MaxMsgLength := 0 }

/-- The update message for chain ibc1 made of the example header. -/
def exampleUpdateB : Msg :=
  Msg.MsgUpdateClient "client-of-ibc1" ⟨⟨0, 100⟩, []⟩ "addr-ibc1"

/-- The update message for chain ibc0 made of the example header. -/
def exampleUpdateA : Msg :=
  Msg.MsgUpdateClient "client-of-ibc0" ⟨⟨0, 100⟩, []⟩ "addr-ibc0"

/-- The receive message endpoint A's answers give for a sequence, signed by B's address. -/
def exampleRecv (seq : Nat) : Msg :=
  Msg.MsgRecvPacket (examplePacket seq) [seq, 1] ⟨0, 99⟩ "addr-ibc1"

/-- The acknowledgement message bound for B: packet answered by B, acknowledgement by A. -/
def exampleAckToB (seq : Nat) : Msg :=
  Msg.MsgAcknowledgement (examplePacket seq) [seq, 2] [seq, 3] ⟨0, 99⟩ "addr-ibc1"

/-- The acknowledgement message bound for A: packet answered by A, acknowledgement by B. -/
def exampleAckToA (seq : Nat) : Msg :=
  Msg.MsgAcknowledgement (examplePacket seq) [seq, 2] [seq, 3] ⟨0, 199⟩ "addr-ibc0"

/-- Endpoint B when it rejects every submission. -/
def chainBRejecting : ProvableChain := exampleChain "ibc1" [] [5] 0 true false

/-- The message m is the receive-packet message for sequence s: built from the packet and the
commitment proof that chain answers for s under ctx, signed with sender. -/
def RecvFor (chain : ProvableChain) (ctx : QueryProofContext) (sender : AccAddress) (s : Nat)
    (m : Msg) : Prop :=
  ∃ p res, chain.QueryPacket ctx s = .ok p ∧
    chain.QueryPacketCommitmentWithProof ctx s = .ok res ∧
    m = Msg.MsgRecvPacket p res.Proof res.ProofHeight sender.String

/-- The message m is the acknowledgement message for sequence s: the packet is the one
senderChain answers under senderCtx, the acknowledgement and its proof are the ones
receiverChain answers under receiverCtx, and the signer is sender. -/
def AckFor (senderChain receiverChain : ProvableChain) (senderCtx receiverCtx : QueryProofContext)
    (sender : AccAddress) (s : Nat) (m : Msg) : Prop :=
  ∃ p ack res, senderChain.QueryPacket senderCtx s = .ok p ∧
    receiverChain.QueryPacketAcknowledgement receiverCtx s = .ok ack ∧
    receiverChain.QueryPacketAcknowledgementCommitmentWithProof receiverCtx s = .ok res ∧
    m = Msg.MsgAcknowledgement p ack res.Proof res.ProofHeight sender.String

/-- The event is a proof query made on the chain named id under the context ctx. -/
def Event.isProofQueryOn (id : String) (ctx : QueryProofContext) (e : Event) : Prop :=
  ∃ seq, e = Event.QueryPacket id ctx seq ∨
    e = Event.QueryPacketCommitmentWithProof id ctx seq ∨
    e = Event.QueryPacketAcknowledgement id ctx seq ∨
    e = Event.QueryPacketAcknowledgementCommitmentWithProof id ctx seq

/-- Within the attempt budget n, r is the first valid answer of a commitment query: the k-th
call (k < n) answers r without error, and no earlier call answers a non-nil response without
error. -/
def FirstValid {ρ : Type} (query : Nat → Except GoError (Option ρ)) (n : Nat) (r : ρ) : Prop :=
  ∃ k, k < n ∧ query k = .ok (some r) ∧ ∀ j, j < k → ∀ r1, query j ≠ .ok (some r1)

/-- What update-client prepending owes for one run r = (error, trace) of a relay operation
whose delivery lists are dD (bound for dst, signed addrD) and dS (bound for src, signed
addrS): an empty delivery list never triggers SetupHeadersForUpdate for its destination;
whatever is handed to Send is, per destination, the update messages made of the
synchronizer's headers followed by the delivery list (nothing in front of an empty list), and
then the operation returns no error; and Send is reached whenever some list is non-empty and
the synchronizer answers for each non-empty list. -/
def PrependContract (sh : SyncHeadersI) (src dst : ProvableChain) (addrD addrS : AccAddress)
    (dD dS : List Msg) (r : Option GoError × List Event) : Prop :=
  (dD = [] → Event.SetupHeadersForUpdate Side.src Side.dst ∉ r.2) ∧
  (dS = [] → Event.SetupHeadersForUpdate Side.dst Side.src ∉ r.2) ∧
  (∀ S D, Event.Send S D ∈ r.2 → r.1 = none ∧
    (∃ upsD, D = upsD ++ dD ∧ (dD = [] → upsD = []) ∧
      (dD ≠ [] → ∃ hs, sh.SetupHeadersForUpdate src dst = .ok hs ∧
        upsD = dst.Path.UpdateClients hs addrD)) ∧
    (∃ upsS, S = upsS ++ dS ∧ (dS = [] → upsS = []) ∧
      (dS ≠ [] → ∃ hs, sh.SetupHeadersForUpdate dst src = .ok hs ∧
        upsS = src.Path.UpdateClients hs addrS))) ∧
  ((dD ≠ [] ∨ dS ≠ []) →
    (dD ≠ [] → ∃ hs, sh.SetupHeadersForUpdate src dst = .ok hs) →
    (dS ≠ [] → ∃ hs, sh.SetupHeadersForUpdate dst src = .ok hs) →
    ∃ S D, Event.Send S D ∈ r.2)

/-- The report lines that follow a Send of the lists S (to src) and D (to dst): the relayed
counts, len - 1 for each list longer than 1, when the send succeeded (Success after Send), and
nothing when it failed. -/
def SendReports (src dst : ProvableChain) (S D : List Msg) : List Event :=
  if (RelayMsgs.Send ⟨some S, some D, 0, 0, false⟩ src dst).Success then
    (if D.length > 1 then logPacketsRelayed dst src (D.length - 1) else []) ++
    (if S.length > 1 then logPacketsRelayed src dst (S.length - 1) else [])
  else []

/-- What a run r = (error, trace) of a relay operation owes once it reaches the send step with
the lists S and D: no error is returned; the trace is the calls made before the send (proof
queries and SetupHeadersForUpdate calls only), the Send, and then the report lines, which are
there exactly when the send succeeded; so after a failed send no relayed count is reported. -/
def SendOutcomeContract (src dst : ProvableChain) (S D : List Msg)
    (r : Option GoError × List Event) : Prop :=
  r.1 = none ∧
  (∃ pre, (∀ e ∈ pre, (∃ a b, e = Event.SetupHeadersForUpdate a b) ∨
      ∃ id ctx, e.isProofQueryOn id ctx) ∧
    r.2 = pre ++ Event.Send S D :: SendReports src dst S D) ∧
  ((RelayMsgs.Send ⟨some S, some D, 0, 0, false⟩ src dst).Success = false →
    ∀ n a b c d, Event.logPacketsRelayed n a b c d ∉ r.2)

/-- The acknowledgement message built for sequence s from the answers pk s (packet), ak s
(acknowledgement) and pr s (acknowledgement proof and its height), signed with addr. -/
def ackMessageFor (pk : Nat → Packet) (ak : Nat → List Nat)
    (pr : Nat → QueryPacketAcknowledgementResponse) (addr : AccAddress) (s : Nat) : Msg :=
  Msg.MsgAcknowledgement (pk s) (ak s) (pr s).Proof (pr s).ProofHeight addr.String

/-- The sequence number a proof query event asks about (0 for the other events). -/
def Event.seqOf : Event → Nat
  | .QueryPacket _ _ seq => seq
  | .QueryPacketCommitmentWithProof _ _ seq => seq
  | .QueryPacketAcknowledgement _ _ seq => seq
  | .QueryPacketAcknowledgementCommitmentWithProof _ _ seq => seq
  | _ => 0

/-! ## Lemmas on the message builders -/

theorem Slice.toList_append {α : Type} (s : Slice α) (x : α) :
    (s.append x).toList = s.toList ++ [x] := rfl

theorem relayPacketsLoop_of_err_none (ctx : QueryProofContext) (chain : ProvableChain)
    (sender : AccAddress) : ∀ (seqs : List Nat) (msgs : Slice Msg) (tr : List Event),
    (relayPacketsLoop ctx chain sender seqs msgs tr).err = none →
    ∃ built, List.Forall₂ (RecvFor chain ctx sender) seqs built ∧
      (relayPacketsLoop ctx chain sender seqs msgs tr).msgs.toList = msgs.toList ++ built
  | [], msgs, tr, _ => ⟨[], List.Forall₂.nil, by simp [relayPacketsLoop]⟩
  | s :: rest, msgs, tr, h => by
    unfold relayPacketsLoop at h ⊢
    cases hp : chain.QueryPacket ctx s with
    | error e => simp [hp] at h
    | ok p =>
      cases hr : chain.QueryPacketCommitmentWithProof ctx s with
      | error e => simp [hp, hr] at h
      | ok res =>
        simp only [hp, hr] at h ⊢
        obtain ⟨built, hb, hm⟩ := relayPacketsLoop_of_err_none ctx chain sender rest _ _ h
        exact ⟨_ :: built, List.Forall₂.cons ⟨p, res, hp, hr, rfl⟩ hb,
          by simp [hm, Slice.toList_append]⟩

theorem relayPacketsLoop_of_all_ok (ctx : QueryProofContext) (chain : ProvableChain)
    (sender : AccAddress) (pk : Nat → Packet) (pr : Nat → QueryPacketCommitmentResponse) :
    ∀ (seqs : List Nat) (msgs : Slice Msg) (tr : List Event),
    (∀ s ∈ seqs, chain.QueryPacket ctx s = .ok (pk s)) →
    (∀ s ∈ seqs, chain.QueryPacketCommitmentWithProof ctx s = .ok (pr s)) →
    (relayPacketsLoop ctx chain sender seqs msgs tr).err = none ∧
    (relayPacketsLoop ctx chain sender seqs msgs tr).msgs.toList = msgs.toList ++
      seqs.map (fun s => Msg.MsgRecvPacket (pk s) (pr s).Proof (pr s).ProofHeight sender.String)
  | [], msgs, tr, _, _ => by simp [relayPacketsLoop]
  | s :: rest, msgs, tr, hp, hr => by
    have h1 := hp s (List.mem_cons_self _ _)
    have h2 := hr s (List.mem_cons_self _ _)
    have ih := relayPacketsLoop_of_all_ok ctx chain sender pk pr rest
      (msgs.append (Msg.MsgRecvPacket (pk s) (pr s).Proof (pr s).ProofHeight sender.String))
      (tr ++ [Event.QueryPacket chain.ChainID ctx s,
        Event.QueryPacketCommitmentWithProof chain.ChainID ctx s])
      (fun t ht => hp t (List.mem_cons_of_mem _ ht))
      (fun t ht => hr t (List.mem_cons_of_mem _ ht))
    unfold relayPacketsLoop
    simp only [h1, h2]
    refine ⟨ih.1, ?_⟩
    rw [ih.2]
    simp [Slice.toList_append]

theorem relayPacketsLoop_err_msgs (ctx : QueryProofContext) (chain : ProvableChain)
    (sender : AccAddress) : ∀ (seqs : List Nat) (msgs : Slice Msg) (tr : List Event)
    (e : GoError), (relayPacketsLoop ctx chain sender seqs msgs tr).err = some e →
    (relayPacketsLoop ctx chain sender seqs msgs tr).msgs = none
  | [], msgs, tr, e, h => by simp [relayPacketsLoop] at h
  | s :: rest, msgs, tr, e, h => by
    unfold relayPacketsLoop at h ⊢
    cases hp : chain.QueryPacket ctx s with
    | error e1 => simp
    | ok p =>
      cases hr : chain.QueryPacketCommitmentWithProof ctx s with
      | error e1 => simp
      | ok res =>
        simp only [hp, hr] at h ⊢
        exact relayPacketsLoop_err_msgs ctx chain sender rest _ _ e h

theorem relayPacketsLoop_first_failure (ctx : QueryProofContext) (chain : ProvableChain)
    (sender : AccAddress) (s : Nat) (post : List Nat) (e : GoError)
    (hs : chain.QueryPacket ctx s = .error e ∨
      ((∃ p, chain.QueryPacket ctx s = .ok p) ∧
        chain.QueryPacketCommitmentWithProof ctx s = .error e)) :
    ∀ (pre : List Nat) (msgs : Slice Msg) (tr : List Event),
    (∀ t ∈ pre, (∃ p, chain.QueryPacket ctx t = .ok p) ∧
      (∃ r, chain.QueryPacketCommitmentWithProof ctx t = .ok r)) →
    (relayPacketsLoop ctx chain sender (pre ++ s :: post) msgs tr).err = some e
  | [], msgs, tr, _ => by
    simp only [List.nil_append]
    unfold relayPacketsLoop
    rcases hs with h | ⟨⟨p, hp⟩, hr⟩
    · simp [h]
    · simp [hp, hr]
  | t :: pre, msgs, tr, hpre => by
    obtain ⟨⟨p, hp⟩, ⟨r, hr⟩⟩ := hpre t (List.mem_cons_self _ _)
    simp only [List.cons_append]
    unfold relayPacketsLoop
    simp only [hp, hr]
    exact relayPacketsLoop_first_failure ctx chain sender s post e hs pre _ _
      (fun u hu => hpre u (List.mem_cons_of_mem _ hu))

theorem relayPacketsLoop_trace (ctx : QueryProofContext) (chain : ProvableChain)
    (sender : AccAddress) : ∀ (seqs : List Nat) (msgs : Slice Msg) (tr : List Event) (ev : Event),
    ev ∈ (relayPacketsLoop ctx chain sender seqs msgs tr).trace →
    ev ∈ tr ∨ Event.isProofQueryOn chain.ChainID ctx ev
  | [], msgs, tr, ev, h => Or.inl (by simpa [relayPacketsLoop] using h)
  | s :: rest, msgs, tr, ev, h => by
    unfold relayPacketsLoop at h
    cases hp : chain.QueryPacket ctx s with
    | error e1 =>
      simp only [hp, List.mem_append, List.mem_singleton] at h
      rcases h with h | h
      · exact Or.inl h
      · exact Or.inr ⟨s, Or.inl h⟩
    | ok p =>
      cases hr : chain.QueryPacketCommitmentWithProof ctx s with
      | error e1 =>
        simp only [hp, hr, List.mem_append, List.mem_cons, List.mem_singleton,
          List.not_mem_nil, or_false] at h
        rcases h with h | h | h
        · exact Or.inl h
        · exact Or.inr ⟨s, Or.inl h⟩
        · exact Or.inr ⟨s, Or.inr (Or.inl h)⟩
      | ok res =>
        simp only [hp, hr] at h
        rcases relayPacketsLoop_trace ctx chain sender rest _ _ ev h with h | h
        · simp only [List.mem_append, List.mem_cons, List.mem_singleton,
            List.not_mem_nil, or_false] at h
          rcases h with h | h | h
          · exact Or.inl h
          · exact Or.inr ⟨s, Or.inl h⟩
          · exact Or.inr ⟨s, Or.inr (Or.inl h)⟩
        · exact Or.inr h

theorem relayAcksLoop_of_err_none (sc rc : QueryProofContext) (sch rch : ProvableChain)
    (sender : AccAddress) : ∀ (seqs : List Nat) (msgs : Slice Msg) (tr : List Event),
    (relayAcksLoop sc rc sch rch sender seqs msgs tr).err = none →
    ∃ built, List.Forall₂ (AckFor sch rch sc rc sender) seqs built ∧
      (relayAcksLoop sc rc sch rch sender seqs msgs tr).msgs.toList = msgs.toList ++ built
  | [], msgs, tr, _ => ⟨[], List.Forall₂.nil, by simp [relayAcksLoop]⟩
  | s :: rest, msgs, tr, h => by
    unfold relayAcksLoop at h ⊢
    cases hp : sch.QueryPacket sc s with
    | error e => simp [hp] at h
    | ok p =>
      cases ha : rch.QueryPacketAcknowledgement rc s with
      | error e => simp [hp, ha] at h
      | ok ack =>
        cases hr : rch.QueryPacketAcknowledgementCommitmentWithProof rc s with
        | error e => simp [hp, ha, hr] at h
        | ok res =>
          simp only [hp, ha, hr] at h ⊢
          obtain ⟨built, hb, hm⟩ := relayAcksLoop_of_err_none sc rc sch rch sender rest _ _ h
          exact ⟨_ :: built, List.Forall₂.cons ⟨p, ack, res, hp, ha, hr, rfl⟩ hb,
            by simp [hm, Slice.toList_append]⟩

theorem relayAcksLoop_of_all_ok (sc rc : QueryProofContext) (sch rch : ProvableChain)
    (sender : AccAddress) (pk : Nat → Packet) (ak : Nat → List Nat)
    (pr : Nat → QueryPacketAcknowledgementResponse) :
    ∀ (seqs : List Nat) (msgs : Slice Msg) (tr : List Event),
    (∀ s ∈ seqs, sch.QueryPacket sc s = .ok (pk s)) →
    (∀ s ∈ seqs, rch.QueryPacketAcknowledgement rc s = .ok (ak s)) →
    (∀ s ∈ seqs, rch.QueryPacketAcknowledgementCommitmentWithProof rc s = .ok (pr s)) →
    (relayAcksLoop sc rc sch rch sender seqs msgs tr).err = none ∧
    (relayAcksLoop sc rc sch rch sender seqs msgs tr).msgs.toList = msgs.toList ++
      seqs.map (fun s =>
        Msg.MsgAcknowledgement (pk s) (ak s) (pr s).Proof (pr s).ProofHeight sender.String)
  | [], msgs, tr, _, _, _ => by simp [relayAcksLoop]
  | s :: rest, msgs, tr, hp, ha, hr => by
    have h1 := hp s (List.mem_cons_self _ _)
    have h2 := ha s (List.mem_cons_self _ _)
    have h3 := hr s (List.mem_cons_self _ _)
    have ih := relayAcksLoop_of_all_ok sc rc sch rch sender pk ak pr rest
      (msgs.append
        (Msg.MsgAcknowledgement (pk s) (ak s) (pr s).Proof (pr s).ProofHeight sender.String))
      (tr ++ [Event.QueryPacket sch.ChainID sc s,
        Event.QueryPacketAcknowledgement rch.ChainID rc s,
        Event.QueryPacketAcknowledgementCommitmentWithProof rch.ChainID rc s])
      (fun t ht => hp t (List.mem_cons_of_mem _ ht))
      (fun t ht => ha t (List.mem_cons_of_mem _ ht))
      (fun t ht => hr t (List.mem_cons_of_mem _ ht))
    unfold relayAcksLoop
    simp only [h1, h2, h3]
    refine ⟨ih.1, ?_⟩
    rw [ih.2]
    simp [Slice.toList_append]

theorem relayAcksLoop_err_msgs (sc rc : QueryProofContext) (sch rch : ProvableChain)
    (sender : AccAddress) : ∀ (seqs : List Nat) (msgs : Slice Msg) (tr : List Event)
    (e : GoError), (relayAcksLoop sc rc sch rch sender seqs msgs tr).err = some e →
    (relayAcksLoop sc rc sch rch sender seqs msgs tr).msgs = none
  | [], msgs, tr, e, h => by simp [relayAcksLoop] at h
  | s :: rest, msgs, tr, e, h => by
    unfold relayAcksLoop at h ⊢
    cases hp : sch.QueryPacket sc s with
    | error e1 => simp
    | ok p =>
      cases ha : rch.QueryPacketAcknowledgement rc s with
      | error e1 => simp
      | ok ack =>
        cases hr : rch.QueryPacketAcknowledgementCommitmentWithProof rc s with
        | error e1 => simp
        | ok res =>
          simp only [hp, ha, hr] at h ⊢
          exact relayAcksLoop_err_msgs sc rc sch rch sender rest _ _ e h

theorem relayAcksLoop_first_failure (sc rc : QueryProofContext) (sch rch : ProvableChain)
    (sender : AccAddress) (s : Nat) (post : List Nat) (e : GoError)
    (hs : sch.QueryPacket sc s = .error e ∨
      ((∃ p, sch.QueryPacket sc s = .ok p) ∧
        rch.QueryPacketAcknowledgement rc s = .error e) ∨
      ((∃ p, sch.QueryPacket sc s = .ok p) ∧
        (∃ a, rch.QueryPacketAcknowledgement rc s = .ok a) ∧
        rch.QueryPacketAcknowledgementCommitmentWithProof rc s = .error e)) :
    ∀ (pre : List Nat) (msgs : Slice Msg) (tr : List Event),
    (∀ t ∈ pre, (∃ p, sch.QueryPacket sc t = .ok p) ∧
      (∃ a, rch.QueryPacketAcknowledgement rc t = .ok a) ∧
      (∃ r, rch.QueryPacketAcknowledgementCommitmentWithProof rc t = .ok r)) →
    (relayAcksLoop sc rc sch rch sender (pre ++ s :: post) msgs tr).err = some e
  | [], msgs, tr, _ => by
    simp only [List.nil_append]
    unfold relayAcksLoop
    rcases hs with h | ⟨⟨p, hp⟩, ha⟩ | ⟨⟨p, hp⟩, ⟨a, ha⟩, hr⟩
    · simp [h]
    · simp [hp, ha]
    · simp [hp, ha, hr]
  | t :: pre, msgs, tr, hpre => by
    obtain ⟨⟨p, hp⟩, ⟨a, ha⟩, ⟨r, hr⟩⟩ := hpre t (List.mem_cons_self _ _)
    simp only [List.cons_append]
    unfold relayAcksLoop
    simp only [hp, ha, hr]
    exact relayAcksLoop_first_failure sc rc sch rch sender s post e hs pre _ _
      (fun u hu => hpre u (List.mem_cons_of_mem _ hu))

theorem relayAcksLoop_trace (sc rc : QueryProofContext) (sch rch : ProvableChain)
    (sender : AccAddress) : ∀ (seqs : List Nat) (msgs : Slice Msg) (tr : List Event) (ev : Event),
    ev ∈ (relayAcksLoop sc rc sch rch sender seqs msgs tr).trace →
    ev ∈ tr ∨ ev = Event.QueryPacket sch.ChainID sc (ev.seqOf) ∨
      ev = Event.QueryPacketAcknowledgement rch.ChainID rc (ev.seqOf) ∨
      ev = Event.QueryPacketAcknowledgementCommitmentWithProof rch.ChainID rc (ev.seqOf)
  | [], msgs, tr, ev, h => Or.inl (by simpa [relayAcksLoop] using h)
  | s :: rest, msgs, tr, ev, h => by
    unfold relayAcksLoop at h
    cases hp : sch.QueryPacket sc s with
    | error e1 =>
      simp only [hp, List.mem_append, List.mem_singleton] at h
      rcases h with h | h
      · exact Or.inl h
      · subst h; exact Or.inr (Or.inl rfl)
    | ok p =>
      cases ha : rch.QueryPacketAcknowledgement rc s with
      | error e1 =>
        simp only [hp, ha, List.mem_append, List.mem_cons, List.mem_singleton,
          List.not_mem_nil, or_false] at h
        rcases h with h | h | h
        · exact Or.inl h
        · subst h; exact Or.inr (Or.inl rfl)
        · subst h; exact Or.inr (Or.inr (Or.inl rfl))
      | ok ack =>
        cases hr : rch.QueryPacketAcknowledgementCommitmentWithProof rc s with
        | error e1 =>
          simp only [hp, ha, hr, List.mem_append, List.mem_cons, List.mem_singleton,
            List.not_mem_nil, or_false] at h
          rcases h with h | h | h | h
          · exact Or.inl h
          · subst h; exact Or.inr (Or.inl rfl)
          · subst h; exact Or.inr (Or.inr (Or.inl rfl))
          · subst h; exact Or.inr (Or.inr (Or.inr rfl))
        | ok res =>
          simp only [hp, ha, hr] at h
          rcases relayAcksLoop_trace sc rc sch rch sender rest _ _ ev h with h | h
          · simp only [List.mem_append, List.mem_cons, List.mem_singleton,
              List.not_mem_nil, or_false] at h
            rcases h with h | h | h | h
            · exact Or.inl h
            · subst h; exact Or.inr (Or.inl rfl)
            · subst h; exact Or.inr (Or.inr (Or.inl rfl))
            · subst h; exact Or.inr (Or.inr (Or.inr rfl))
          · exact Or.inr h

theorem relayPacketsLoop_err_none_iff (ctx : QueryProofContext) (chain : ProvableChain)
    (sender : AccAddress) : ∀ (seqs : List Nat) (msgs : Slice Msg) (tr : List Event),
    (relayPacketsLoop ctx chain sender seqs msgs tr).err = none ↔
    ∀ s ∈ seqs, (∃ p, chain.QueryPacket ctx s = .ok p) ∧
      (∃ r, chain.QueryPacketCommitmentWithProof ctx s = .ok r)
  | [], msgs, tr => by simp [relayPacketsLoop]
  | s :: rest, msgs, tr => by
    unfold relayPacketsLoop
    cases hp : chain.QueryPacket ctx s with
    | error e => simp [hp]
    | ok p =>
      cases hr : chain.QueryPacketCommitmentWithProof ctx s with
      | error e => simp [hp, hr]
      | ok res =>
        simp only [hp, hr]
        rw [relayPacketsLoop_err_none_iff ctx chain sender rest]
        simp [hp, hr]

theorem relayAcksLoop_err_none_iff (sc rc : QueryProofContext) (sch rch : ProvableChain)
    (sender : AccAddress) : ∀ (seqs : List Nat) (msgs : Slice Msg) (tr : List Event),
    (relayAcksLoop sc rc sch rch sender seqs msgs tr).err = none ↔
    ∀ s ∈ seqs, (∃ p, sch.QueryPacket sc s = .ok p) ∧
      (∃ a, rch.QueryPacketAcknowledgement rc s = .ok a) ∧
      (∃ r, rch.QueryPacketAcknowledgementCommitmentWithProof rc s = .ok r)
  | [], msgs, tr => by simp [relayAcksLoop]
  | s :: rest, msgs, tr => by
    unfold relayAcksLoop
    cases hp : sch.QueryPacket sc s with
    | error e => simp [hp]
    | ok p =>
      cases ha : rch.QueryPacketAcknowledgement rc s with
      | error e => simp [hp, ha]
      | ok ack =>
        cases hr : rch.QueryPacketAcknowledgementCommitmentWithProof rc s with
        | error e => simp [hp, ha, hr]
        | ok res =>
          simp only [hp, ha, hr]
          rw [relayAcksLoop_err_none_iff sc rc sch rch sender rest]
          simp [hp, ha, hr]

/-! ## Lemmas on update-client prepending and the send step -/

theorem prependUpdateClients_empty (sh : SyncHeadersI) (a b : ProvableChain) (sa sb : Side)
    (list : Slice Msg) (h : list.toList = []) :
    prependUpdateClients sh a b sa sb list = (list, none, []) := by
  simp [prependUpdateClients, Slice.len, h]

theorem prependUpdateClients_trace (sh : SyncHeadersI) (a b : ProvableChain) (sa sb : Side)
    (list : Slice Msg) (h : list.toList ≠ []) :
    (prependUpdateClients sh a b sa sb list).2.2 = [Event.SetupHeadersForUpdate sa sb] := by
  have hl : list.toList.length ≠ 0 := by simpa using h
  unfold prependUpdateClients
  simp only [Slice.len, bne_iff_ne, ne_eq, hl, not_false_eq_true, if_true]
  cases sh.SetupHeadersForUpdate a b with
  | error e => rfl
  | ok hs =>
    by_cases hk : hs.length > 0
    · simp only [hk, if_true]
      cases b.GetAddress <;> rfl
    · simp only [hk, if_false]

theorem prependUpdateClients_ok (sh : SyncHeadersI) (a b : ProvableChain) (sa sb : Side)
    (list : Slice Msg) (h : list.toList ≠ [])
    (hok : (prependUpdateClients sh a b sa sb list).2.1 = none) :
    ∃ hs, sh.SetupHeadersForUpdate a b = .ok hs ∧ ∀ addr, b.GetAddress = .ok addr →
      (prependUpdateClients sh a b sa sb list).1.toList =
        b.Path.UpdateClients hs addr ++ list.toList := by
  have hl : list.toList.length ≠ 0 := by simpa using h
  unfold prependUpdateClients at hok ⊢
  simp only [Slice.len, bne_iff_ne, ne_eq, hl, not_false_eq_true, if_true] at hok ⊢
  cases hsu : sh.SetupHeadersForUpdate a b with
  | error e => simp [hsu] at hok
  | ok hs =>
    refine ⟨hs, rfl, ?_⟩
    intro addr haddr
    by_cases hk : hs.length > 0
    · simp [hk, haddr, Slice.toList]
    · have : hs = [] := by
        cases hs with
        | nil => rfl
        | cons x xs => simp at hk
      subst this
      simp [PathEnd.UpdateClients]

theorem prependUpdateClients_succeeds (sh : SyncHeadersI) (a b : ProvableChain) (sa sb : Side)
    (list : Slice Msg) (hs : List HeaderI) (addr : AccAddress)
    (hsu : sh.SetupHeadersForUpdate a b = .ok hs) (haddr : b.GetAddress = .ok addr) :
    (prependUpdateClients sh a b sa sb list).2.1 = none := by
  unfold prependUpdateClients
  by_cases hl : list.len != 0
  · simp only [hl, if_true, hsu, haddr]
    by_cases hk : hs.length > 0
    · simp [hk]
    · simp [hk]
  · simp [hl]

/-- The report lines after a send: only logPacketsRelayed events. -/
theorem prependAndSend_trace (src dst : ProvableChain) (sh : SyncHeadersI) (msgs : RelayMsgs)
    (hready : msgs.Ready = true)
    (h1 : (prependUpdateClients sh src dst Side.src Side.dst msgs.Dst).2.1 = none)
    (h2 : (prependUpdateClients sh dst src Side.dst Side.src msgs.Src).2.1 = none) :
    (prependAndSend src dst sh msgs).1 = none ∧
    ∃ logs, (∀ e ∈ logs, ∃ n a b c d, e = Event.logPacketsRelayed n a b c d) ∧
      (prependAndSend src dst sh msgs).2 =
        (prependUpdateClients sh src dst Side.src Side.dst msgs.Dst).2.2 ++
        (prependUpdateClients sh dst src Side.dst Side.src msgs.Src).2.2 ++
        [Event.Send (prependUpdateClients sh dst src Side.dst Side.src msgs.Src).1.toList
          (prependUpdateClients sh src dst Side.src Side.dst msgs.Dst).1.toList] ++ logs := by
  unfold prependAndSend
  simp only [hready, Bool.not_true, Bool.false_eq_true, if_false]
  rcases hd : prependUpdateClients sh src dst Side.src Side.dst msgs.Dst with ⟨l1, e1, t1⟩
  rcases hs : prependUpdateClients sh dst src Side.dst Side.src msgs.Src with ⟨l2, e2, t2⟩
  rw [hd] at h1
  rw [hs] at h2
  simp only at h1 h2
  subst h1
  subst h2
  simp only
  split
  · refine ⟨rfl, _, ?_, by simp only [List.append_assoc]; rfl⟩
    intro e he
    simp only [logPacketsRelayed, List.mem_append] at he
    rcases he with he | he
    · split at he
      · simp only [List.mem_singleton] at he
        exact ⟨_, _, _, _, _, he⟩
      · simp at he
    · split at he
      · simp only [List.mem_singleton] at he
        exact ⟨_, _, _, _, _, he⟩
      · simp at he
  · exact ⟨rfl, [], by simp, by simp⟩

theorem prependAndSend_not_ready (src dst : ProvableChain) (sh : SyncHeadersI) (msgs : RelayMsgs)
    (hready : msgs.Ready = false) :
    prependAndSend src dst sh msgs = (none, [Event.logNothingToRelay]) := by
  simp [prependAndSend, hready]

theorem prependAndSend_err_left (src dst : ProvableChain) (sh : SyncHeadersI) (msgs : RelayMsgs)
    (hready : msgs.Ready = true) (e : GoError)
    (h1 : (prependUpdateClients sh src dst Side.src Side.dst msgs.Dst).2.1 = some e) :
    prependAndSend src dst sh msgs =
      (some e, (prependUpdateClients sh src dst Side.src Side.dst msgs.Dst).2.2) := by
  unfold prependAndSend
  simp only [hready, Bool.not_true, Bool.false_eq_true, if_false]
  rcases hd : prependUpdateClients sh src dst Side.src Side.dst msgs.Dst with ⟨l1, e1, t1⟩
  rw [hd] at h1
  simp only at h1
  subst h1
  rfl

theorem prependAndSend_err_right (src dst : ProvableChain) (sh : SyncHeadersI) (msgs : RelayMsgs)
    (hready : msgs.Ready = true) (e : GoError)
    (h1 : (prependUpdateClients sh src dst Side.src Side.dst msgs.Dst).2.1 = none)
    (h2 : (prependUpdateClients sh dst src Side.dst Side.src msgs.Src).2.1 = some e) :
    prependAndSend src dst sh msgs =
      (some e, (prependUpdateClients sh src dst Side.src Side.dst msgs.Dst).2.2 ++
        (prependUpdateClients sh dst src Side.dst Side.src msgs.Src).2.2) := by
  unfold prependAndSend
  simp only [hready, Bool.not_true, Bool.false_eq_true, if_false]
  rcases hd : prependUpdateClients sh src dst Side.src Side.dst msgs.Dst with ⟨l1, e1, t1⟩
  rcases hs : prependUpdateClients sh dst src Side.dst Side.src msgs.Src with ⟨l2, e2, t2⟩
  rw [hd] at h1
  rw [hs] at h2
  simp only at h1 h2
  subst h1
  subst h2
  rfl

theorem prependUpdateClients_mem (sh : SyncHeadersI) (a b : ProvableChain) (sa sb : Side)
    (list : Slice Msg) (e : Event) (he : e ∈ (prependUpdateClients sh a b sa sb list).2.2) :
    e = Event.SetupHeadersForUpdate sa sb ∧ list.toList ≠ [] := by
  by_cases h : list.toList = []
  · rw [prependUpdateClients_empty sh a b sa sb list h] at he
    simp at he
  · rw [prependUpdateClients_trace sh a b sa sb list h] at he
    exact ⟨by simpa using he, h⟩

/-- Every event of the tail of a relay operation, with what its presence tells. -/
theorem prependAndSend_mem (src dst : ProvableChain) (sh : SyncHeadersI) (msgs : RelayMsgs)
    (e : Event) (he : e ∈ (prependAndSend src dst sh msgs).2) :
    (e = Event.SetupHeadersForUpdate Side.src Side.dst ∧ msgs.Dst.toList ≠ []) ∨
    (e = Event.SetupHeadersForUpdate Side.dst Side.src ∧ msgs.Src.toList ≠ []) ∨
    (e = Event.Send (prependUpdateClients sh dst src Side.dst Side.src msgs.Src).1.toList
          (prependUpdateClients sh src dst Side.src Side.dst msgs.Dst).1.toList ∧
      msgs.Ready = true ∧
      (prependUpdateClients sh src dst Side.src Side.dst msgs.Dst).2.1 = none ∧
      (prependUpdateClients sh dst src Side.dst Side.src msgs.Src).2.1 = none ∧
      (prependAndSend src dst sh msgs).1 = none) ∨
    (∃ n a b c d, e = Event.logPacketsRelayed n a b c d) ∨
    e = Event.logNothingToRelay := by
  cases hready : msgs.Ready with
  | false =>
    rw [prependAndSend_not_ready src dst sh msgs hready] at he
    simp only [List.mem_singleton] at he
    exact Or.inr (Or.inr (Or.inr (Or.inr he)))
  | true =>
    cases h1 : (prependUpdateClients sh src dst Side.src Side.dst msgs.Dst).2.1 with
    | some e1 =>
      rw [prependAndSend_err_left src dst sh msgs hready e1 h1] at he
      exact Or.inl (prependUpdateClients_mem sh src dst _ _ _ e he)
    | none =>
      cases h2 : (prependUpdateClients sh dst src Side.dst Side.src msgs.Src).2.1 with
      | some e2 =>
        rw [prependAndSend_err_right src dst sh msgs hready e2 h1 h2] at he
        rcases List.mem_append.1 he with he | he
        · exact Or.inl (prependUpdateClients_mem sh src dst _ _ _ e he)
        · exact Or.inr (Or.inl (prependUpdateClients_mem sh dst src _ _ _ e he))
      | none =>
        obtain ⟨hres, logs, hlogs, htr⟩ := prependAndSend_trace src dst sh msgs hready h1 h2
        rw [htr] at he
        simp only [List.mem_append, List.mem_singleton] at he
        rcases he with ((he | he) | he) | he
        · exact Or.inl (prependUpdateClients_mem sh src dst _ _ _ e he)
        · exact Or.inr (Or.inl (prependUpdateClients_mem sh dst src _ _ _ e he))
        · exact Or.inr (Or.inr (Or.inl ⟨he, rfl, rfl, rfl, hres⟩))
        · exact Or.inr (Or.inr (Or.inr (Or.inl (hlogs e he))))

/-- A proof query is never one of the events of the tail. -/
theorem Event.isProofQueryOn_not_tail (id : String) (ctx : QueryProofContext) (e : Event)
    (h : e.isProofQueryOn id ctx) :
    (∀ a b, e ≠ Event.SetupHeadersForUpdate a b) ∧ (∀ S D, e ≠ Event.Send S D) ∧
    (∀ n a b c d, e ≠ Event.logPacketsRelayed n a b c d) ∧ e ≠ Event.logNothingToRelay := by
  obtain ⟨seq, h | h | h | h⟩ := h <;> subst h <;>
    exact ⟨fun _ _ => Event.noConfusion, fun _ _ => Event.noConfusion,
      fun _ _ _ _ _ => Event.noConfusion, Event.noConfusion⟩

theorem relayPackets_trace (ctx : QueryProofContext) (chain : ProvableChain) (seqs : List Nat)
    (sender : AccAddress) (ev : Event) (h : ev ∈ (relayPackets ctx chain seqs sender).trace) :
    ev.isProofQueryOn chain.ChainID ctx := by
  rcases relayPacketsLoop_trace ctx chain sender seqs none [] ev h with h | h
  · simp at h
  · exact h

theorem relayAcks_trace (sc rc : QueryProofContext) (sch rch : ProvableChain) (seqs : List Nat)
    (sender : AccAddress) (ev : Event) (h : ev ∈ (relayAcks sc rc sch rch seqs sender).trace) :
    ev.isProofQueryOn sch.ChainID sc ∨ ev.isProofQueryOn rch.ChainID rc := by
  rcases relayAcksLoop_trace sc rc sch rch sender seqs none [] ev h with h | h | h | h
  · simp at h
  · exact Or.inl ⟨_, Or.inl h⟩
  · exact Or.inr ⟨_, Or.inr (Or.inr (Or.inl h))⟩
  · exact Or.inr ⟨_, Or.inr (Or.inr (Or.inr h))⟩

/-- The shape of a run of RelayPackets: either it returns an error before the tail, having
made proof queries only, or both delivery lists were built and the tail ran on them. -/
theorem RelayPackets_cases (st : NaiveStrategy) (src dst : ProvableChain) (sp : RelaySequences)
    (sh : SyncHeadersI) :
    ((∃ e, (RelayPackets st src dst sp sh).1 = some e) ∧
      ∀ ev ∈ (RelayPackets st src dst sp sh).2,
        ev.isProofQueryOn src.ChainID (sh.GetQueryProofContext src.ChainID) ∨
        ev.isProofQueryOn dst.ChainID (sh.GetQueryProofContext dst.ChainID)) ∨
    (∃ addrD addrS, dst.GetAddress = .ok addrD ∧ src.GetAddress = .ok addrS ∧
      (relayPackets (sh.GetQueryProofContext src.ChainID) src sp.Src.toList addrD).err = none ∧
      (relayPackets (sh.GetQueryProofContext dst.ChainID) dst sp.Dst.toList addrS).err = none ∧
      RelayPackets st src dst sp sh =
        ((prependAndSend src dst sh
            { Src := (relayPackets (sh.GetQueryProofContext dst.ChainID) dst sp.Dst.toList
                addrS).msgs,
              Dst := (relayPackets (sh.GetQueryProofContext src.ChainID) src sp.Src.toList
                addrD).msgs,
              MaxTxSize := st.MaxTxSize, MaxMsgLength := st.MaxMsgLength,
              Succeeded := false }).1,
          (relayPackets (sh.GetQueryProofContext src.ChainID) src sp.Src.toList addrD).trace ++
          (relayPackets (sh.GetQueryProofContext dst.ChainID) dst sp.Dst.toList addrS).trace ++
          (prependAndSend src dst sh
            { Src := (relayPackets (sh.GetQueryProofContext dst.ChainID) dst sp.Dst.toList
                addrS).msgs,
              Dst := (relayPackets (sh.GetQueryProofContext src.ChainID) src sp.Src.toList
                addrD).msgs,
              MaxTxSize := st.MaxTxSize, MaxMsgLength := st.MaxMsgLength,
              Succeeded := false }).2)) := by
  unfold RelayPackets
  cases hD : dst.GetAddress with
  | error e => exact Or.inl ⟨⟨e, rfl⟩, by simp⟩
  | ok addrD =>
    simp only
    cases h1 : (relayPackets (sh.GetQueryProofContext src.ChainID) src sp.Src.toList
        addrD).err with
    | some e =>
      refine Or.inl ⟨⟨e, rfl⟩, ?_⟩
      intro ev hev
      exact Or.inl (relayPackets_trace _ _ _ _ ev hev)
    | none =>
      simp only
      cases hS : src.GetAddress with
      | error e =>
        refine Or.inl ⟨⟨e, rfl⟩, ?_⟩
        intro ev hev
        exact Or.inl (relayPackets_trace _ _ _ _ ev hev)
      | ok addrS =>
        simp only
        cases h2 : (relayPackets (sh.GetQueryProofContext dst.ChainID) dst sp.Dst.toList
            addrS).err with
        | some e =>
          refine Or.inl ⟨⟨e, rfl⟩, ?_⟩
          intro ev hev
          rcases List.mem_append.1 hev with hev | hev
          · exact Or.inl (relayPackets_trace _ _ _ _ ev hev)
          · exact Or.inr (relayPackets_trace _ _ _ _ ev hev)
        | none => exact Or.inr ⟨addrD, addrS, rfl, rfl, h1, h2, rfl⟩

/-- The shape of a run of RelayAcknowledgements, as for RelayPackets. -/
theorem RelayAcknowledgements_cases (st : NaiveStrategy) (src dst : ProvableChain)
    (sp : RelaySequences) (sh : SyncHeadersI) :
    ((∃ e, (RelayAcknowledgements st src dst sp sh).1 = some e) ∧
      ∀ ev ∈ (RelayAcknowledgements st src dst sp sh).2,
        ev.isProofQueryOn src.ChainID (sh.GetQueryProofContext src.ChainID) ∨
        ev.isProofQueryOn dst.ChainID (sh.GetQueryProofContext dst.ChainID)) ∨
    (∃ addrD addrS, dst.GetAddress = .ok addrD ∧ src.GetAddress = .ok addrS ∧
      (relayAcks (sh.GetQueryProofContext dst.ChainID) (sh.GetQueryProofContext src.ChainID)
        dst src sp.Src.toList addrD).err = none ∧
      (relayAcks (sh.GetQueryProofContext src.ChainID) (sh.GetQueryProofContext dst.ChainID)
        src dst sp.Dst.toList addrS).err = none ∧
      RelayAcknowledgements st src dst sp sh =
        ((prependAndSend src dst sh
            { Src := (relayAcks (sh.GetQueryProofContext src.ChainID)
                (sh.GetQueryProofContext dst.ChainID) src dst sp.Dst.toList addrS).msgs,
              Dst := (relayAcks (sh.GetQueryProofContext dst.ChainID)
                (sh.GetQueryProofContext src.ChainID) dst src sp.Src.toList addrD).msgs,
              MaxTxSize := st.MaxTxSize, MaxMsgLength := st.MaxMsgLength,
              Succeeded := false }).1,
          (relayAcks (sh.GetQueryProofContext dst.ChainID) (sh.GetQueryProofContext src.ChainID)
            dst src sp.Src.toList addrD).trace ++
          (relayAcks (sh.GetQueryProofContext src.ChainID) (sh.GetQueryProofContext dst.ChainID)
            src dst sp.Dst.toList addrS).trace ++
          (prependAndSend src dst sh
            { Src := (relayAcks (sh.GetQueryProofContext src.ChainID)
                (sh.GetQueryProofContext dst.ChainID) src dst sp.Dst.toList addrS).msgs,
              Dst := (relayAcks (sh.GetQueryProofContext dst.ChainID)
                (sh.GetQueryProofContext src.ChainID) dst src sp.Src.toList addrD).msgs,
              MaxTxSize := st.MaxTxSize, MaxMsgLength := st.MaxMsgLength,
              Succeeded := false }).2)) := by
  unfold RelayAcknowledgements
  cases hD : dst.GetAddress with
  | error e => exact Or.inl ⟨⟨e, rfl⟩, by simp⟩
  | ok addrD =>
    simp only
    cases h1 : (relayAcks (sh.GetQueryProofContext dst.ChainID)
        (sh.GetQueryProofContext src.ChainID) dst src sp.Src.toList addrD).err with
    | some e =>
      refine Or.inl ⟨⟨e, rfl⟩, ?_⟩
      intro ev hev
      exact (relayAcks_trace _ _ _ _ _ _ ev hev).symm
    | none =>
      simp only
      cases hS : src.GetAddress with
      | error e =>
        refine Or.inl ⟨⟨e, rfl⟩, ?_⟩
        intro ev hev
        exact (relayAcks_trace _ _ _ _ _ _ ev hev).symm
      | ok addrS =>
        simp only
        cases h2 : (relayAcks (sh.GetQueryProofContext src.ChainID)
            (sh.GetQueryProofContext dst.ChainID) src dst sp.Dst.toList addrS).err with
        | some e =>
          refine Or.inl ⟨⟨e, rfl⟩, ?_⟩
          intro ev hev
          rcases List.mem_append.1 hev with hev | hev
          · exact (relayAcks_trace _ _ _ _ _ _ ev hev).symm
          · exact relayAcks_trace _ _ _ _ _ _ ev hev
        | none => exact Or.inr ⟨addrD, addrS, rfl, rfl, h1, h2, rfl⟩

theorem prependUpdateClients_sent (sh : SyncHeadersI) (a b : ProvableChain) (sa sb : Side)
    (list : Slice Msg) (addr : AccAddress) (haddr : b.GetAddress = .ok addr)
    (hok : (prependUpdateClients sh a b sa sb list).2.1 = none) :
    ∃ ups, (prependUpdateClients sh a b sa sb list).1.toList = ups ++ list.toList ∧
      (list.toList = [] → ups = []) ∧
      (list.toList ≠ [] → ∃ hs, sh.SetupHeadersForUpdate a b = .ok hs ∧
        ups = b.Path.UpdateClients hs addr) := by
  by_cases h : list.toList = []
  · refine ⟨[], ?_, fun _ => rfl, fun h1 => absurd h h1⟩
    rw [prependUpdateClients_empty sh a b sa sb list h]
    simp
  · obtain ⟨hs, hsu, hl⟩ := prependUpdateClients_ok sh a b sa sb list h hok
    exact ⟨b.Path.UpdateClients hs addr, hl addr haddr, fun h1 => absurd h1 h,
      fun _ => ⟨hs, hsu, rfl⟩⟩

theorem prependUpdateClients_live (sh : SyncHeadersI) (a b : ProvableChain) (sa sb : Side)
    (list : Slice Msg) (addr : AccAddress) (haddr : b.GetAddress = .ok addr)
    (hsu : list.toList ≠ [] → ∃ hs, sh.SetupHeadersForUpdate a b = .ok hs) :
    (prependUpdateClients sh a b sa sb list).2.1 = none := by
  by_cases h : list.toList = []
  · rw [prependUpdateClients_empty sh a b sa sb list h]
  · obtain ⟨hs, hs1⟩ := hsu h
    exact prependUpdateClients_succeeds sh a b sa sb list hs addr hs1 haddr

/-- The tail of a relay operation, run after proof queries only, keeps the prepend contract. -/
theorem prependAndSend_contract (src dst : ProvableChain) (sh : SyncHeadersI) (msgs : RelayMsgs)
    (addrD addrS : AccAddress) (hD : dst.GetAddress = .ok addrD)
    (hS : src.GetAddress = .ok addrS) (q : List Event)
    (hq : ∀ ev ∈ q, ∃ id ctx, ev.isProofQueryOn id ctx) :
    PrependContract sh src dst addrD addrS msgs.Dst.toList msgs.Src.toList
      ((prependAndSend src dst sh msgs).1, q ++ (prependAndSend src dst sh msgs).2) := by
  have hmem : ∀ e, (∀ id ctx, ¬ e.isProofQueryOn id ctx) →
      e ∈ q ++ (prependAndSend src dst sh msgs).2 → e ∈ (prependAndSend src dst sh msgs).2 := by
    intro e hne he
    rcases List.mem_append.1 he with he | he
    · obtain ⟨id, ctx, h⟩ := hq e he
      exact absurd h (hne id ctx)
    · exact he
  have hsetup : ∀ a b id ctx, ¬ (Event.SetupHeadersForUpdate a b).isProofQueryOn id ctx :=
    fun a b id ctx h => (Event.isProofQueryOn_not_tail id ctx _ h).1 a b rfl
  have hsend : ∀ S D id ctx, ¬ (Event.Send S D).isProofQueryOn id ctx :=
    fun S D id ctx h => (Event.isProofQueryOn_not_tail id ctx _ h).2.1 S D rfl
  refine ⟨?_, ?_, ?_, ?_⟩
  · intro hempty hin
    have := prependAndSend_mem src dst sh msgs _ (hmem _ (hsetup _ _) hin)
    rcases this with ⟨_, h⟩ | ⟨h, _⟩ | ⟨h, _⟩ | ⟨n, a, b, c, d, h⟩ | h
    · exact h hempty
    · cases h
    · cases h
    · cases h
    · cases h
  · intro hempty hin
    have := prependAndSend_mem src dst sh msgs _ (hmem _ (hsetup _ _) hin)
    rcases this with ⟨h, _⟩ | ⟨_, h⟩ | ⟨h, _⟩ | ⟨n, a, b, c, d, h⟩ | h
    · cases h
    · exact h hempty
    · cases h
    · cases h
    · cases h
  · intro S D hin
    have := prependAndSend_mem src dst sh msgs _ (hmem _ (hsend _ _) hin)
    rcases this with ⟨h, _⟩ | ⟨h, _⟩ | ⟨h, _, h1, h2, hres⟩ | ⟨n, a, b, c, d, h⟩ | h
    · cases h
    · cases h
    · injection h with hS1 hD1
      subst hS1
      subst hD1
      exact ⟨hres, prependUpdateClients_sent sh src dst _ _ msgs.Dst addrD hD h1,
        prependUpdateClients_sent sh dst src _ _ msgs.Src addrS hS h2⟩
    · cases h
    · cases h
  · intro hne hsuD hsuS
    have hready : msgs.Ready = true := by
      simp only [RelayMsgs.Ready, Slice.len, Bool.or_eq_true, bne_iff_ne, ne_eq,
        List.length_eq_zero]
      exact hne.symm
    have h1 := prependUpdateClients_live sh src dst Side.src Side.dst msgs.Dst addrD hD hsuD
    have h2 := prependUpdateClients_live sh dst src Side.dst Side.src msgs.Src addrS hS hsuS
    obtain ⟨_, logs, _, htr⟩ := prependAndSend_trace src dst sh msgs hready h1 h2
    refine ⟨(prependUpdateClients sh dst src Side.dst Side.src msgs.Src).1.toList,
      (prependUpdateClients sh src dst Side.src Side.dst msgs.Dst).1.toList, ?_⟩
    show Event.Send _ _ ∈ q ++ (prependAndSend src dst sh msgs).2
    rw [htr]
    exact List.mem_append_right _ (List.mem_append_left _ (List.mem_append_right _
      (List.mem_singleton.2 rfl)))

theorem RelayPackets_eq (st : NaiveStrategy) (src dst : ProvableChain) (sp : RelaySequences)
    (sh : SyncHeadersI) (addrD addrS : AccAddress) (hD : dst.GetAddress = .ok addrD)
    (hS : src.GetAddress = .ok addrS)
    (h1 : (relayPackets (sh.GetQueryProofContext src.ChainID) src sp.Src.toList addrD).err
      = none)
    (h2 : (relayPackets (sh.GetQueryProofContext dst.ChainID) dst sp.Dst.toList addrS).err
      = none) :
    RelayPackets st src dst sp sh =
      ((prependAndSend src dst sh
          { Src := (relayPackets (sh.GetQueryProofContext dst.ChainID) dst sp.Dst.toList
              addrS).msgs,
            Dst := (relayPackets (sh.GetQueryProofContext src.ChainID) src sp.Src.toList
              addrD).msgs,
            MaxTxSize := st.MaxTxSize, MaxMsgLength := st.MaxMsgLength,
            Succeeded := false }).1,
        ((relayPackets (sh.GetQueryProofContext src.ChainID) src sp.Src.toList addrD).trace ++
          (relayPackets (sh.GetQueryProofContext dst.ChainID) dst sp.Dst.toList addrS).trace) ++
        (prependAndSend src dst sh
          { Src := (relayPackets (sh.GetQueryProofContext dst.ChainID) dst sp.Dst.toList
              addrS).msgs,
            Dst := (relayPackets (sh.GetQueryProofContext src.ChainID) src sp.Src.toList
              addrD).msgs,
            MaxTxSize := st.MaxTxSize, MaxMsgLength := st.MaxMsgLength,
            Succeeded := false }).2) := by
  unfold RelayPackets
  simp only [hD, hS, h1, h2]

theorem RelayAcknowledgements_eq (st : NaiveStrategy) (src dst : ProvableChain)
    (sp : RelaySequences) (sh : SyncHeadersI) (addrD addrS : AccAddress)
    (hD : dst.GetAddress = .ok addrD) (hS : src.GetAddress = .ok addrS)
    (h1 : (relayAcks (sh.GetQueryProofContext dst.ChainID) (sh.GetQueryProofContext src.ChainID)
      dst src sp.Src.toList addrD).err = none)
    (h2 : (relayAcks (sh.GetQueryProofContext src.ChainID) (sh.GetQueryProofContext dst.ChainID)
      src dst sp.Dst.toList addrS).err = none) :
    RelayAcknowledgements st src dst sp sh =
      ((prependAndSend src dst sh
          { Src := (relayAcks (sh.GetQueryProofContext src.ChainID)
              (sh.GetQueryProofContext dst.ChainID) src dst sp.Dst.toList addrS).msgs,
            Dst := (relayAcks (sh.GetQueryProofContext dst.ChainID)
              (sh.GetQueryProofContext src.ChainID) dst src sp.Src.toList addrD).msgs,
            MaxTxSize := st.MaxTxSize, MaxMsgLength := st.MaxMsgLength,
            Succeeded := false }).1,
        ((relayAcks (sh.GetQueryProofContext dst.ChainID) (sh.GetQueryProofContext src.ChainID)
            dst src sp.Src.toList addrD).trace ++
          (relayAcks (sh.GetQueryProofContext src.ChainID) (sh.GetQueryProofContext dst.ChainID)
            src dst sp.Dst.toList addrS).trace) ++
        (prependAndSend src dst sh
          { Src := (relayAcks (sh.GetQueryProofContext src.ChainID)
              (sh.GetQueryProofContext dst.ChainID) src dst sp.Dst.toList addrS).msgs,
            Dst := (relayAcks (sh.GetQueryProofContext dst.ChainID)
              (sh.GetQueryProofContext src.ChainID) dst src sp.Src.toList addrD).msgs,
            MaxTxSize := st.MaxTxSize, MaxMsgLength := st.MaxMsgLength,
            Succeeded := false }).2) := by
  unfold RelayAcknowledgements
  simp only [hD, hS, h1, h2]

theorem relayPackets_queries (ctx1 ctx2 : QueryProofContext) (c1 c2 : ProvableChain)
    (l1 l2 : List Nat) (a1 a2 : AccAddress) :
    ∀ ev ∈ (relayPackets ctx1 c1 l1 a1).trace ++ (relayPackets ctx2 c2 l2 a2).trace,
      ∃ id ctx, ev.isProofQueryOn id ctx := by
  intro ev hev
  rcases List.mem_append.1 hev with h | h
  · exact ⟨_, _, relayPackets_trace _ _ _ _ ev h⟩
  · exact ⟨_, _, relayPackets_trace _ _ _ _ ev h⟩

theorem relayAcks_queries (x1 y1 x2 y2 : QueryProofContext) (c1 d1 c2 d2 : ProvableChain)
    (l1 l2 : List Nat) (a1 a2 : AccAddress) :
    ∀ ev ∈ (relayAcks x1 y1 c1 d1 l1 a1).trace ++ (relayAcks x2 y2 c2 d2 l2 a2).trace,
      ∃ id ctx, ev.isProofQueryOn id ctx := by
  intro ev hev
  rcases List.mem_append.1 hev with h | h
  · rcases relayAcks_trace _ _ _ _ _ _ ev h with h | h
    · exact ⟨_, _, h⟩
    · exact ⟨_, _, h⟩
  · rcases relayAcks_trace _ _ _ _ _ _ ev h with h | h
    · exact ⟨_, _, h⟩
    · exact ⟨_, _, h⟩

theorem prependAndSend_not_query (src dst : ProvableChain) (sh : SyncHeadersI) (msgs : RelayMsgs)
    (e : Event) (he : e ∈ (prependAndSend src dst sh msgs).2) (id : String)
    (ctx : QueryProofContext) : ¬ e.isProofQueryOn id ctx := by
  intro hq
  have hn := Event.isProofQueryOn_not_tail id ctx e hq
  rcases prependAndSend_mem src dst sh msgs e he with
    ⟨h, _⟩ | ⟨h, _⟩ | ⟨h, _⟩ | ⟨n, a, b, c, d, h⟩ | h
  · exact hn.1 _ _ h
  · exact hn.1 _ _ h
  · exact hn.2.1 _ _ h
  · exact hn.2.2.1 _ _ _ _ _ h
  · exact hn.2.2.2 h

theorem UpdateClients_all_updates (pe : PathEnd) (hs : List HeaderI) (addr : AccAddress) :
    ∀ m ∈ pe.UpdateClients hs addr, ∃ c h a, m = Msg.MsgUpdateClient c h a := by
  intro m hm
  simp only [PathEnd.UpdateClients, List.mem_map] at hm
  obtain ⟨h, _, rfl⟩ := hm
  exact ⟨_, _, _, rfl⟩

/-- The prepend contract holds of both relay operations. -/
theorem update_clients_prepended_lemma (st : NaiveStrategy)
    (src dst : ProvableChain) (sp : RelaySequences) (sh : SyncHeadersI)
    (addrD addrS : AccAddress) (hD : dst.GetAddress = .ok addrD)
    (hS : src.GetAddress = .ok addrS) :
    ((relayPackets (sh.GetQueryProofContext src.ChainID) src sp.Src.toList addrD).err = none →
      (relayPackets (sh.GetQueryProofContext dst.ChainID) dst sp.Dst.toList addrS).err = none →
      PrependContract sh src dst addrD addrS
        (relayPackets (sh.GetQueryProofContext src.ChainID) src sp.Src.toList addrD).msgs.toList
        (relayPackets (sh.GetQueryProofContext dst.ChainID) dst sp.Dst.toList addrS).msgs.toList
        (RelayPackets st src dst sp sh)) ∧
    ((relayAcks (sh.GetQueryProofContext dst.ChainID) (sh.GetQueryProofContext src.ChainID)
        dst src sp.Src.toList addrD).err = none →
      (relayAcks (sh.GetQueryProofContext src.ChainID) (sh.GetQueryProofContext dst.ChainID)
        src dst sp.Dst.toList addrS).err = none →
      PrependContract sh src dst addrD addrS
        (relayAcks (sh.GetQueryProofContext dst.ChainID) (sh.GetQueryProofContext src.ChainID)
          dst src sp.Src.toList addrD).msgs.toList
        (relayAcks (sh.GetQueryProofContext src.ChainID) (sh.GetQueryProofContext dst.ChainID)
          src dst sp.Dst.toList addrS).msgs.toList
        (RelayAcknowledgements st src dst sp sh)) := by
  constructor
  · intro h1 h2
    rw [RelayPackets_eq st src dst sp sh addrD addrS hD hS h1 h2]
    exact prependAndSend_contract src dst sh
      { Src := (relayPackets (sh.GetQueryProofContext dst.ChainID) dst sp.Dst.toList
          addrS).msgs,
        Dst := (relayPackets (sh.GetQueryProofContext src.ChainID) src sp.Src.toList
          addrD).msgs,
        MaxTxSize := st.MaxTxSize, MaxMsgLength := st.MaxMsgLength, Succeeded := false }
      addrD addrS hD hS _ (relayPackets_queries _ _ _ _ _ _ _ _)
  · intro h1 h2
    rw [RelayAcknowledgements_eq st src dst sp sh addrD addrS hD hS h1 h2]
    exact prependAndSend_contract src dst sh
      { Src := (relayAcks (sh.GetQueryProofContext src.ChainID)
          (sh.GetQueryProofContext dst.ChainID) src dst sp.Dst.toList addrS).msgs,
        Dst := (relayAcks (sh.GetQueryProofContext dst.ChainID)
          (sh.GetQueryProofContext src.ChainID) dst src sp.Src.toList addrD).msgs,
        MaxTxSize := st.MaxTxSize, MaxMsgLength := st.MaxMsgLength, Succeeded := false }
      addrD addrS hD hS _ (relayAcks_queries _ _ _ _ _ _ _ _ _ _ _ _)

theorem prependAndSend_trace_exact (src dst : ProvableChain) (sh : SyncHeadersI)
    (msgs : RelayMsgs) (hready : msgs.Ready = true)
    (h1 : (prependUpdateClients sh src dst Side.src Side.dst msgs.Dst).2.1 = none)
    (h2 : (prependUpdateClients sh dst src Side.dst Side.src msgs.Src).2.1 = none) :
    (prependAndSend src dst sh msgs).2 =
      ((prependUpdateClients sh src dst Side.src Side.dst msgs.Dst).2.2 ++
        (prependUpdateClients sh dst src Side.dst Side.src msgs.Src).2.2) ++
      Event.Send (prependUpdateClients sh dst src Side.dst Side.src msgs.Src).1.toList
          (prependUpdateClients sh src dst Side.src Side.dst msgs.Dst).1.toList ::
        SendReports src dst
          (prependUpdateClients sh dst src Side.dst Side.src msgs.Src).1.toList
          (prependUpdateClients sh src dst Side.src Side.dst msgs.Dst).1.toList := by
  unfold prependAndSend
  simp only [hready, Bool.not_true, Bool.false_eq_true, if_false]
  rcases hd : prependUpdateClients sh src dst Side.src Side.dst msgs.Dst with ⟨l1, e1, t1⟩
  rcases hs : prependUpdateClients sh dst src Side.dst Side.src msgs.Src with ⟨l2, e2, t2⟩
  rw [hd] at h1
  rw [hs] at h2
  simp only at h1 h2
  subst h1
  subst h2
  simp only [SendReports, RelayMsgs.Send, RelayMsgs.Success, Slice.len]
  have e1 : Slice.toList (some (Slice.toList l1)) = Slice.toList l1 := rfl
  have e2 : Slice.toList (some (Slice.toList l2)) = Slice.toList l2 := rfl
  rw [e1, e2]
  cases src.Submit (Slice.toList l2) && dst.Submit (Slice.toList l1) <;>
    simp [List.append_assoc]

/-- A run that makes proof queries and then runs the tail keeps the send-outcome contract. -/
theorem prependAndSend_send_outcome (src dst : ProvableChain) (sh : SyncHeadersI)
    (msgs : RelayMsgs) (q : List Event) (hq : ∀ ev ∈ q, ∃ id ctx, ev.isProofQueryOn id ctx)
    (S D : List Msg) (hin : Event.Send S D ∈ q ++ (prependAndSend src dst sh msgs).2) :
    SendOutcomeContract src dst S D
      ((prependAndSend src dst sh msgs).1, q ++ (prependAndSend src dst sh msgs).2) := by
  have hin1 : Event.Send S D ∈ (prependAndSend src dst sh msgs).2 := by
    rcases List.mem_append.1 hin with h | h
    · obtain ⟨id, ctx, hp⟩ := hq _ h
      exact absurd rfl ((Event.isProofQueryOn_not_tail id ctx _ hp).2.1 S D)
    · exact h
  rcases prependAndSend_mem src dst sh msgs _ hin1 with
    ⟨h, _⟩ | ⟨h, _⟩ | ⟨h, hready, h1, h2, hres⟩ | ⟨n, a, b, c, d, h⟩ | h
  · cases h
  · cases h
  · injection h with hS1 hD1
    have htr := prependAndSend_trace_exact src dst sh msgs hready h1 h2
    rw [← hS1, ← hD1] at htr
    have hpre : ∀ e ∈ q ++ ((prependUpdateClients sh src dst Side.src Side.dst msgs.Dst).2.2 ++
        (prependUpdateClients sh dst src Side.dst Side.src msgs.Src).2.2),
        (∃ a b, e = Event.SetupHeadersForUpdate a b) ∨ ∃ id ctx, e.isProofQueryOn id ctx := by
      intro e he
      simp only [List.mem_append] at he
      rcases he with he | he | he
      · exact Or.inr (hq e he)
      · exact Or.inl ⟨_, _, (prependUpdateClients_mem sh src dst _ _ _ e he).1⟩
      · exact Or.inl ⟨_, _, (prependUpdateClients_mem sh dst src _ _ _ e he).1⟩
    have hshape : q ++ (prependAndSend src dst sh msgs).2 =
        (q ++ ((prependUpdateClients sh src dst Side.src Side.dst msgs.Dst).2.2 ++
          (prependUpdateClients sh dst src Side.dst Side.src msgs.Src).2.2)) ++
        Event.Send S D :: SendReports src dst S D := by
      rw [htr]
      simp only [List.append_assoc]
    refine ⟨hres, ⟨_, hpre, hshape⟩, ?_⟩
    intro hfail n a b c d hlog
    have hlog1 : Event.logPacketsRelayed n a b c d ∈
        (q ++ ((prependUpdateClients sh src dst Side.src Side.dst msgs.Dst).2.2 ++
          (prependUpdateClients sh dst src Side.dst Side.src msgs.Src).2.2)) ++
        Event.Send S D :: SendReports src dst S D := by
      rw [← hshape]; exact hlog
    have hrep : SendReports src dst S D = [] := by
      unfold SendReports
      rw [hfail]
      rfl
    rw [hrep] at hlog1
    simp only [List.mem_append, List.mem_cons, List.not_mem_nil, or_false] at hlog1
    rcases hlog1 with hl | hl
    · rcases hpre _ (by simpa only [List.mem_append] using hl) with
        ⟨a1, b1, h3⟩ | ⟨id, ctx, h3⟩
      · cases h3
      · exact (Event.isProofQueryOn_not_tail id ctx _ h3).2.2.1 n a b c d rfl
    · cases hl
  · cases h
  · cases h

/-- What RelayAcknowledgements hands to Send, and under which contexts it queries. -/
theorem RelayAcknowledgements_safety (st : NaiveStrategy) (src dst : ProvableChain)
    (sp : RelaySequences) (sh : SyncHeadersI) :
    (∀ S D, Event.Send S D ∈ (RelayAcknowledgements st src dst sp sh).2 →
      ∃ addrD addrS upsD acksD upsS acksS,
        dst.GetAddress = .ok addrD ∧ src.GetAddress = .ok addrS ∧
        D = upsD ++ acksD ∧ S = upsS ++ acksS ∧
        (∀ m ∈ upsD, ∃ c h a, m = Msg.MsgUpdateClient c h a) ∧
        (∀ m ∈ upsS, ∃ c h a, m = Msg.MsgUpdateClient c h a) ∧
        List.Forall₂ (AckFor dst src (sh.GetQueryProofContext dst.ChainID)
          (sh.GetQueryProofContext src.ChainID) addrD) sp.Src.toList acksD ∧
        List.Forall₂ (AckFor src dst (sh.GetQueryProofContext src.ChainID)
          (sh.GetQueryProofContext dst.ChainID) addrS) sp.Dst.toList acksS) ∧
    (∀ ev ∈ (RelayAcknowledgements st src dst sp sh).2,
      (∃ id ctx, ev.isProofQueryOn id ctx) →
        ev.isProofQueryOn src.ChainID (sh.GetQueryProofContext src.ChainID) ∨
        ev.isProofQueryOn dst.ChainID (sh.GetQueryProofContext dst.ChainID)) := by
  rcases RelayAcknowledgements_cases st src dst sp sh with ⟨_, hq⟩ |
    ⟨addrD, addrS, hD, hS, h1, h2, heq⟩
  · refine ⟨?_, fun ev hev _ => hq ev hev⟩
    intro S D hin
    rcases hq _ hin with h | h
    · exact absurd rfl ((Event.isProofQueryOn_not_tail _ _ _ h).2.1 S D)
    · exact absurd rfl ((Event.isProofQueryOn_not_tail _ _ _ h).2.1 S D)
  · have hc := (update_clients_prepended_lemma st src dst sp sh addrD addrS hD hS).2 h1 h2
    constructor
    · intro S D hin
      obtain ⟨_, ⟨upsD, hDeq, hD0, hD1⟩, ⟨upsS, hSeq, hS0, hS1⟩⟩ := hc.2.2.1 S D hin
      obtain ⟨bD, hbD, hmD⟩ := relayAcksLoop_of_err_none _ _ _ _ _ _ none [] h1
      obtain ⟨bS, hbS, hmS⟩ := relayAcksLoop_of_err_none _ _ _ _ _ _ none [] h2
      have hmD1 : (relayAcks (sh.GetQueryProofContext dst.ChainID)
          (sh.GetQueryProofContext src.ChainID) dst src sp.Src.toList addrD).msgs.toList
          = bD := by simpa [relayAcks, Slice.toList] using hmD
      have hmS1 : (relayAcks (sh.GetQueryProofContext src.ChainID)
          (sh.GetQueryProofContext dst.ChainID) src dst sp.Dst.toList addrS).msgs.toList
          = bS := by simpa [relayAcks, Slice.toList] using hmS
      rw [hmD1] at hDeq hD0 hD1
      rw [hmS1] at hSeq hS0 hS1
      refine ⟨addrD, addrS, upsD, bD, upsS, bS, hD, hS, hDeq, hSeq, ?_, ?_, hbD, hbS⟩
      · by_cases hb : bD = []
        · rw [hD0 hb]; simp
        · obtain ⟨hs, _, hu⟩ := hD1 hb
          rw [hu]
          exact UpdateClients_all_updates _ _ _
      · by_cases hb : bS = []
        · rw [hS0 hb]; simp
        · obtain ⟨hs, _, hu⟩ := hS1 hb
          rw [hu]
          exact UpdateClients_all_updates _ _ _
    · intro ev hev hquery
      rw [heq] at hev
      simp only [List.mem_append] at hev
      rcases hev with (hev | hev) | hev
      · exact (relayAcks_trace _ _ _ _ _ _ ev hev).symm
      · exact relayAcks_trace _ _ _ _ _ _ ev hev
      · obtain ⟨id, ctx, hq⟩ := hquery
        exact absurd hq (prependAndSend_not_query src dst sh _ ev hev id ctx)

/-- When every query succeeds and the synchronizer answers, RelayAcknowledgements reaches the
send step with exactly the update messages followed by the acknowledgement messages. -/
theorem RelayAcknowledgements_live (st : NaiveStrategy) (src dst : ProvableChain)
    (sp : RelaySequences) (sh : SyncHeadersI) (addrD addrS : AccAddress)
    (pkD pkS : Nat → Packet) (akD akS : Nat → List Nat)
    (prD prS : Nat → QueryPacketAcknowledgementResponse) (hsD hsS : List HeaderI)
    (hD : dst.GetAddress = .ok addrD) (hS : src.GetAddress = .ok addrS)
    (h1 : ∀ s ∈ sp.Src.toList,
      dst.QueryPacket (sh.GetQueryProofContext dst.ChainID) s = .ok (pkD s))
    (h2 : ∀ s ∈ sp.Src.toList,
      src.QueryPacketAcknowledgement (sh.GetQueryProofContext src.ChainID) s = .ok (akD s))
    (h3 : ∀ s ∈ sp.Src.toList,
      src.QueryPacketAcknowledgementCommitmentWithProof (sh.GetQueryProofContext src.ChainID) s
        = .ok (prD s))
    (h4 : ∀ s ∈ sp.Dst.toList,
      src.QueryPacket (sh.GetQueryProofContext src.ChainID) s = .ok (pkS s))
    (h5 : ∀ s ∈ sp.Dst.toList,
      dst.QueryPacketAcknowledgement (sh.GetQueryProofContext dst.ChainID) s = .ok (akS s))
    (h6 : ∀ s ∈ sp.Dst.toList,
      dst.QueryPacketAcknowledgementCommitmentWithProof (sh.GetQueryProofContext dst.ChainID) s
        = .ok (prS s))
    (hne : sp.Src.toList ≠ [] ∨ sp.Dst.toList ≠ [])
    (huD : sp.Src.toList ≠ [] → sh.SetupHeadersForUpdate src dst = .ok hsD)
    (huS : sp.Dst.toList ≠ [] → sh.SetupHeadersForUpdate dst src = .ok hsS) :
    (RelayAcknowledgements st src dst sp sh).1 = none ∧
    Event.Send
      ((if sp.Dst.toList = [] then [] else src.Path.UpdateClients hsS addrS) ++
        sp.Dst.toList.map (ackMessageFor pkS akS prS addrS))
      ((if sp.Src.toList = [] then [] else dst.Path.UpdateClients hsD addrD) ++
        sp.Src.toList.map (ackMessageFor pkD akD prD addrD)) ∈
      (RelayAcknowledgements st src dst sp sh).2 := by
  have hA := relayAcksLoop_of_all_ok (sh.GetQueryProofContext dst.ChainID)
    (sh.GetQueryProofContext src.ChainID) dst src addrD pkD akD prD sp.Src.toList none [] h1 h2 h3
  have hB := relayAcksLoop_of_all_ok (sh.GetQueryProofContext src.ChainID)
    (sh.GetQueryProofContext dst.ChainID) src dst addrS pkS akS prS sp.Dst.toList none [] h4 h5 h6
  have hdD : (relayAcks (sh.GetQueryProofContext dst.ChainID)
      (sh.GetQueryProofContext src.ChainID) dst src sp.Src.toList addrD).msgs.toList =
      sp.Src.toList.map (ackMessageFor pkD akD prD addrD) := by
    have := hA.2
    simpa [relayAcks, Slice.toList, ackMessageFor] using this
  have hdS : (relayAcks (sh.GetQueryProofContext src.ChainID)
      (sh.GetQueryProofContext dst.ChainID) src dst sp.Dst.toList addrS).msgs.toList =
      sp.Dst.toList.map (ackMessageFor pkS akS prS addrS) := by
    have := hB.2
    simpa [relayAcks, Slice.toList, ackMessageFor] using this
  have hc := (update_clients_prepended_lemma st src dst sp sh addrD addrS hD hS).2 hA.1 hB.1
  rw [hdD, hdS] at hc
  have hnD : sp.Src.toList.map (ackMessageFor pkD akD prD addrD) ≠ [] ↔ sp.Src.toList ≠ [] := by
    simp
  have hnS : sp.Dst.toList.map (ackMessageFor pkS akS prS addrS) ≠ [] ↔ sp.Dst.toList ≠ [] := by
    simp
  obtain ⟨S, D, hin⟩ := hc.2.2.2 (hne.imp hnD.2 hnS.2)
    (fun h => ⟨hsD, huD (hnD.1 h)⟩) (fun h => ⟨hsS, huS (hnS.1 h)⟩)
  obtain ⟨hres, ⟨upsD, hDeq, hD0, hD1⟩, ⟨upsS, hSeq, hS0, hS1⟩⟩ := hc.2.2.1 S D hin
  have eD : upsD = if sp.Src.toList = [] then [] else dst.Path.UpdateClients hsD addrD := by
    by_cases he : sp.Src.toList = []
    · rw [if_pos he]
      exact hD0 (by simp [he])
    · rw [if_neg he]
      obtain ⟨hs, hsu, hu⟩ := hD1 (hnD.2 he)
      rw [huD he] at hsu
      injection hsu with hsu
      rw [hu, ← hsu]
  have eS : upsS = if sp.Dst.toList = [] then [] else src.Path.UpdateClients hsS addrS := by
    by_cases he : sp.Dst.toList = []
    · rw [if_pos he]
      exact hS0 (by simp [he])
    · rw [if_neg he]
      obtain ⟨hs, hsu, hu⟩ := hS1 (hnS.2 he)
      rw [huS he] at hsu
      injection hsu with hsu
      rw [hu, ← hsu]
  rw [← eD, ← eS, ← hDeq, ← hSeq]
  exact ⟨hres, hin⟩

/-! ## Lemmas on the reconcilers -/

theorem firstValid_unique {ρ : Type} (query : Nat → Except GoError (Option ρ)) (n m : Nat)
    (r1 r2 : ρ) (h1 : FirstValid query n r1) (h2 : FirstValid query m r2) : r1 = r2 := by
  obtain ⟨k1, _, hq1, hf1⟩ := h1
  obtain ⟨k2, _, hq2, hf2⟩ := h2
  rcases Nat.lt_trichotomy k1 k2 with h | h | h
  · exact absurd hq1 (hf2 k1 h r1)
  · subst h
    rw [hq1] at hq2
    injection hq2 with h3
    injection h3
  · exact absurd hq2 (hf1 k2 h r2)

/-- C2: when every packet query and every commitment-proof query of the chain succeeds on the
sequences of seqs (answering pk s and pr s), relayPackets returns no error and a message list
of the same length as seqs whose i-th message is the receive-packet message built from the
packet, the proof and the proof height answered for seqs[i] and the sender address. -/
theorem relayPackets_one_message_per_sequence (ctx : QueryProofContext) (chain : ProvableChain)
    (seqs : List Nat) (sender : AccAddress) (pk : Nat → Packet)
    (pr : Nat → QueryPacketCommitmentResponse)
    (hp : ∀ s ∈ seqs, chain.QueryPacket ctx s = .ok (pk s))
    (hr : ∀ s ∈ seqs, chain.QueryPacketCommitmentWithProof ctx s = .ok (pr s)) :
    (relayPackets ctx chain seqs sender).err = none ∧
    (relayPackets ctx chain seqs sender).msgs.toList.length = seqs.length ∧
    (∀ (i : Nat) (hi : i < seqs.length),
      (relayPackets ctx chain seqs sender).msgs.toList[i]? =
        some (Msg.MsgRecvPacket (pk seqs[i]) (pr seqs[i]).Proof (pr seqs[i]).ProofHeight
          sender.String)) := by
  have h := relayPacketsLoop_of_all_ok ctx chain sender pk pr seqs none [] hp hr
  have hl : (relayPackets ctx chain seqs sender).msgs.toList =
      seqs.map (fun s => Msg.MsgRecvPacket (pk s) (pr s).Proof (pr s).ProofHeight
        sender.String) := by
    simpa [relayPackets, Slice.toList] using h.2
  refine ⟨h.1, by simp [hl], ?_⟩
  intro i hi
  simp [hl, List.getElem?_map, List.getElem?_eq_getElem hi]

/-- Witness for C2: endpoint A is asked for sequences 6 and 7. -/
theorem relayPackets_one_message_per_sequence_witness :
    ((∀ s ∈ [6, 7], chainA.QueryPacket ⟨⟨0, 99⟩⟩ s = .ok (examplePacket s)) ∧
     (∀ s ∈ [6, 7], chainA.QueryPacketCommitmentWithProof ⟨⟨0, 99⟩⟩ s =
        .ok ⟨[s], [s, 1], ⟨0, 99⟩⟩)) ∧
    ((relayPackets ⟨⟨0, 99⟩⟩ chainA [6, 7] ⟨"addr-ibc1"⟩).err = none ∧
     (relayPackets ⟨⟨0, 99⟩⟩ chainA [6, 7] ⟨"addr-ibc1"⟩).msgs.toList.length = [6, 7].length ∧
     (∀ (i : Nat) (hi : i < [6, 7].length),
       (relayPackets ⟨⟨0, 99⟩⟩ chainA [6, 7] ⟨"addr-ibc1"⟩).msgs.toList[i]? =
         some (Msg.MsgRecvPacket (examplePacket [6, 7][i]) [[6, 7][i], 1] ⟨0, 99⟩
           (AccAddress.String ⟨"addr-ibc1"⟩)))) :=
  have h1 : ∀ s ∈ [6, 7], chainA.QueryPacket ⟨⟨0, 99⟩⟩ s = .ok (examplePacket s) := by
    intro s hs
    simp only [List.mem_cons, List.mem_singleton, List.not_mem_nil, or_false] at hs
    rcases hs with rfl | rfl <;> rfl
  have h2 : ∀ s ∈ [6, 7], chainA.QueryPacketCommitmentWithProof ⟨⟨0, 99⟩⟩ s =
      .ok ⟨[s], [s, 1], ⟨0, 99⟩⟩ := by
    intro s hs
    simp only [List.mem_cons, List.mem_singleton, List.not_mem_nil, or_false] at hs
    rcases hs with rfl | rfl <;> rfl
  ⟨⟨h1, h2⟩, relayPackets_one_message_per_sequence ⟨⟨0, 99⟩⟩ chainA [6, 7] ⟨"addr-ibc1"⟩
    examplePacket (fun s => ⟨[s], [s, 1], ⟨0, 99⟩⟩) h1 h2⟩

/-! ## C3: acknowledgements are built from the right chain under its own context -/

/-- C3: (1) whatever RelayAcknowledgements hands to Send is, for dst, update messages followed
by one acknowledgement message per sequence of sp.Src in order, each carrying the packet
answered by dst under dst's proof context and the acknowledgement and proof answered by src
under src's proof context, signed with dst's address; and symmetrically for src with the
sequences of sp.Dst.  (2) Every proof query of the run is made on a chain under that chain's
own proof context.  (3) When all its queries succeed, relayAcks returns no error and exactly
one acknowledgement message per input sequence, in input order.  (4) When both addresses are
known, every query succeeds on the sequences of sp, some list of sp is non-empty and the
synchronizer answers for each non-empty list, RelayAcknowledgements returns no error and hands
to Send exactly the update messages followed by those acknowledgement messages, list by
list. -/
theorem RelayAcknowledgements_uses_own_contexts (st : NaiveStrategy) (src dst : ProvableChain)
    (sp : RelaySequences) (sh : SyncHeadersI) :
    (∀ S D, Event.Send S D ∈ (RelayAcknowledgements st src dst sp sh).2 →
      ∃ addrD addrS upsD acksD upsS acksS,
        dst.GetAddress = .ok addrD ∧ src.GetAddress = .ok addrS ∧
        D = upsD ++ acksD ∧ S = upsS ++ acksS ∧
        (∀ m ∈ upsD, ∃ c h a, m = Msg.MsgUpdateClient c h a) ∧
        (∀ m ∈ upsS, ∃ c h a, m = Msg.MsgUpdateClient c h a) ∧
        List.Forall₂ (AckFor dst src (sh.GetQueryProofContext dst.ChainID)
          (sh.GetQueryProofContext src.ChainID) addrD) sp.Src.toList acksD ∧
        List.Forall₂ (AckFor src dst (sh.GetQueryProofContext src.ChainID)
          (sh.GetQueryProofContext dst.ChainID) addrS) sp.Dst.toList acksS) ∧
    (∀ ev ∈ (RelayAcknowledgements st src dst sp sh).2,
      (∃ id ctx, ev.isProofQueryOn id ctx) →
        ev.isProofQueryOn src.ChainID (sh.GetQueryProofContext src.ChainID) ∨
        ev.isProofQueryOn dst.ChainID (sh.GetQueryProofContext dst.ChainID)) ∧
    (∀ (sc rc : QueryProofContext) (sch rch : ProvableChain) (seqs : List Nat)
      (sender : AccAddress) (pk : Nat → Packet) (ak : Nat → List Nat)
      (pr : Nat → QueryPacketAcknowledgementResponse),
      (∀ s ∈ seqs, sch.QueryPacket sc s = .ok (pk s)) →
      (∀ s ∈ seqs, rch.QueryPacketAcknowledgement rc s = .ok (ak s)) →
      (∀ s ∈ seqs, rch.QueryPacketAcknowledgementCommitmentWithProof rc s = .ok (pr s)) →
      (relayAcks sc rc sch rch seqs sender).err = none ∧
      (relayAcks sc rc sch rch seqs sender).msgs.toList =
        seqs.map (ackMessageFor pk ak pr sender) ∧
      (relayAcks sc rc sch rch seqs sender).msgs.toList.length = seqs.length) ∧
    (∀ (addrD addrS : AccAddress) (pkD pkS : Nat → Packet) (akD akS : Nat → List Nat)
      (prD prS : Nat → QueryPacketAcknowledgementResponse) (hsD hsS : List HeaderI),
      dst.GetAddress = .ok addrD → src.GetAddress = .ok addrS →
      (∀ s ∈ sp.Src.toList,
        dst.QueryPacket (sh.GetQueryProofContext dst.ChainID) s = .ok (pkD s)) →
      (∀ s ∈ sp.Src.toList,
        src.QueryPacketAcknowledgement (sh.GetQueryProofContext src.ChainID) s = .ok (akD s)) →
      (∀ s ∈ sp.Src.toList,
        src.QueryPacketAcknowledgementCommitmentWithProof (sh.GetQueryProofContext src.ChainID)
          s = .ok (prD s)) →
      (∀ s ∈ sp.Dst.toList,
        src.QueryPacket (sh.GetQueryProofContext src.ChainID) s = .ok (pkS s)) →
      (∀ s ∈ sp.Dst.toList,
        dst.QueryPacketAcknowledgement (sh.GetQueryProofContext dst.ChainID) s = .ok (akS s)) →
      (∀ s ∈ sp.Dst.toList,
        dst.QueryPacketAcknowledgementCommitmentWithProof (sh.GetQueryProofContext dst.ChainID)
          s = .ok (prS s)) →
      (sp.Src.toList ≠ [] ∨ sp.Dst.toList ≠ []) →
      (sp.Src.toList ≠ [] → sh.SetupHeadersForUpdate src dst = .ok hsD) →
      (sp.Dst.toList ≠ [] → sh.SetupHeadersForUpdate dst src = .ok hsS) →
      (RelayAcknowledgements st src dst sp sh).1 = none ∧
      Event.Send
        ((if sp.Dst.toList = [] then [] else src.Path.UpdateClients hsS addrS) ++
          sp.Dst.toList.map (ackMessageFor pkS akS prS addrS))
        ((if sp.Src.toList = [] then [] else dst.Path.UpdateClients hsD addrD) ++
          sp.Src.toList.map (ackMessageFor pkD akD prD addrD)) ∈
        (RelayAcknowledgements st src dst sp sh).2) := by
  refine ⟨(RelayAcknowledgements_safety st src dst sp sh).1,
    (RelayAcknowledgements_safety st src dst sp sh).2, ?_, ?_⟩
  · intro sc rc sch rch seqs sender pk ak pr hp ha hr
    have h := relayAcksLoop_of_all_ok sc rc sch rch sender pk ak pr seqs none [] hp ha hr
    have hl : (relayAcks sc rc sch rch seqs sender).msgs.toList =
        seqs.map (ackMessageFor pk ak pr sender) := by
      have := h.2
      simpa [relayAcks, Slice.toList, ackMessageFor] using this
    exact ⟨h.1, hl, by rw [hl, List.length_map]⟩
  · intro addrD addrS pkD pkS akD akS prD prS hsD hsS hD hS h1 h2 h3 h4 h5 h6 hne huD huS
    exact RelayAcknowledgements_live st src dst sp sh addrD addrS pkD pkS akD akS prD prS hsD hsS
      hD hS h1 h2 h3 h4 h5 h6 hne huD huS

/-- Witness for C3: A acknowledges sequence 6 to B and B acknowledges sequence 7 to A, one
header each way: RelayAcknowledgements returns no error and hands to Send, for A, the update
message and the acknowledgement of 7 and, for B, the update message and the acknowledgement
of 6. -/
theorem RelayAcknowledgements_uses_own_contexts_witness :
    (RelayAcknowledgements NewNaiveStrategy chainA chainB ⟨some [6], some [7]⟩
        (exampleSync 1)).1 = none ∧
    Event.Send [exampleUpdateA, exampleAckToA 7] [exampleUpdateB, exampleAckToB 6] ∈
      (RelayAcknowledgements NewNaiveStrategy chainA chainB ⟨some [6], some [7]⟩
        (exampleSync 1)).2 :=
  have one : ∀ (a : Nat) (P : Nat → Prop), P a → ∀ s ∈ [a], P s := by
    intro a P h s hs
    rw [List.mem_singleton.1 hs]
    exact h
  (RelayAcknowledgements_uses_own_contexts NewNaiveStrategy chainA chainB
    ⟨some [6], some [7]⟩ (exampleSync 1)).2.2.2 ⟨"addr-ibc1"⟩ ⟨"addr-ibc0"⟩
    examplePacket examplePacket (fun s => [s, 2]) (fun s => [s, 2])
    (fun s => ⟨[s, 2], [s, 3], ⟨0, 99⟩⟩) (fun s => ⟨[s, 2], [s, 3], ⟨0, 199⟩⟩)
    [⟨⟨0, 100⟩, []⟩] [⟨⟨0, 100⟩, []⟩] rfl rfl
    (one 6 _ rfl) (one 6 _ rfl) (one 6 _ rfl) (one 7 _ rfl) (one 7 _ rfl) (one 7 _ rfl)
    (Or.inl (by decide)) (fun _ => rfl) (fun _ => rfl)

/-! ## C4: the builders are all-or-nothing -/

/-- C4: for relayPackets and for relayAcks, whenever seqs splits as pre ++ s :: post with every
query succeeding on the sequences of pre and some query failing on s (e being the error of
the first query that fails on s, in the order the loop issues them), the builder returns e and
the nil message list, however long pre is; an error always comes with the nil list; and the
builder returns no error if and only if every query succeeds on every sequence of seqs. -/
theorem relay_builders_all_or_nothing (ctx sc rc : QueryProofContext)
    (chain sch rch : ProvableChain) (sender : AccAddress) (seqs : List Nat) :
    (∀ (pre post : List Nat) (s : Nat) (e : GoError), seqs = pre ++ s :: post →
      (∀ t ∈ pre, (∃ p, chain.QueryPacket ctx t = .ok p) ∧
        (∃ r, chain.QueryPacketCommitmentWithProof ctx t = .ok r)) →
      (chain.QueryPacket ctx s = .error e ∨
        ((∃ p, chain.QueryPacket ctx s = .ok p) ∧
          chain.QueryPacketCommitmentWithProof ctx s = .error e)) →
      (relayPackets ctx chain seqs sender).err = some e ∧
      (relayPackets ctx chain seqs sender).msgs = none) ∧
    (∀ e, (relayPackets ctx chain seqs sender).err = some e →
      (relayPackets ctx chain seqs sender).msgs = none) ∧
    ((relayPackets ctx chain seqs sender).err = none ↔
      ∀ s ∈ seqs, (∃ p, chain.QueryPacket ctx s = .ok p) ∧
        (∃ r, chain.QueryPacketCommitmentWithProof ctx s = .ok r)) ∧
    (∀ (pre post : List Nat) (s : Nat) (e : GoError), seqs = pre ++ s :: post →
      (∀ t ∈ pre, (∃ p, sch.QueryPacket sc t = .ok p) ∧
        (∃ a, rch.QueryPacketAcknowledgement rc t = .ok a) ∧
        (∃ r, rch.QueryPacketAcknowledgementCommitmentWithProof rc t = .ok r)) →
      (sch.QueryPacket sc s = .error e ∨
        ((∃ p, sch.QueryPacket sc s = .ok p) ∧
          rch.QueryPacketAcknowledgement rc s = .error e) ∨
        ((∃ p, sch.QueryPacket sc s = .ok p) ∧
          (∃ a, rch.QueryPacketAcknowledgement rc s = .ok a) ∧
          rch.QueryPacketAcknowledgementCommitmentWithProof rc s = .error e)) →
      (relayAcks sc rc sch rch seqs sender).err = some e ∧
      (relayAcks sc rc sch rch seqs sender).msgs = none) ∧
    (∀ e, (relayAcks sc rc sch rch seqs sender).err = some e →
      (relayAcks sc rc sch rch seqs sender).msgs = none) ∧
    ((relayAcks sc rc sch rch seqs sender).err = none ↔
      ∀ s ∈ seqs, (∃ p, sch.QueryPacket sc s = .ok p) ∧
        (∃ a, rch.QueryPacketAcknowledgement rc s = .ok a) ∧
        (∃ r, rch.QueryPacketAcknowledgementCommitmentWithProof rc s = .ok r)) := by
  refine ⟨?_, ?_, ?_, ?_, ?_, ?_⟩
  · intro pre post s e hseqs hpre hs
    subst hseqs
    have he := relayPacketsLoop_first_failure ctx chain sender s post e hs pre none [] hpre
    exact ⟨he, relayPacketsLoop_err_msgs ctx chain sender _ none [] e he⟩
  · intro e he
    exact relayPacketsLoop_err_msgs ctx chain sender seqs none [] e he
  · exact relayPacketsLoop_err_none_iff ctx chain sender seqs none []
  · intro pre post s e hseqs hpre hs
    subst hseqs
    have he := relayAcksLoop_first_failure sc rc sch rch sender s post e hs pre none [] hpre
    exact ⟨he, relayAcksLoop_err_msgs sc rc sch rch sender _ none [] e he⟩
  · intro e he
    exact relayAcksLoop_err_msgs sc rc sch rch sender seqs none [] e he
  · exact relayAcksLoop_err_none_iff sc rc sch rch sender seqs none []

/-- Witness for C4: on sequences 6, 7, 8, 9 the commitment-proof query for 8 is the first to
fail (the packet query for 9 would fail later), and relayPackets returns that error with the
nil list; with acknowledgements, the acknowledgement query for 10 is the first to fail. -/
theorem relay_builders_all_or_nothing_witness :
    ((relayPackets ⟨⟨0, 99⟩⟩ chainA [6, 7, 8, 9] ⟨"addr-ibc1"⟩).err = some (.external 8) ∧
      (relayPackets ⟨⟨0, 99⟩⟩ chainA [6, 7, 8, 9] ⟨"addr-ibc1"⟩).msgs = none) ∧
    ((relayAcks ⟨⟨0, 99⟩⟩ ⟨⟨0, 199⟩⟩ chainA chainB [6, 7, 10, 9] ⟨"addr-ibc0"⟩).err =
        some (.external 10) ∧
      (relayAcks ⟨⟨0, 99⟩⟩ ⟨⟨0, 199⟩⟩ chainA chainB [6, 7, 10, 9] ⟨"addr-ibc0"⟩).msgs = none) :=
  have h := relay_builders_all_or_nothing ⟨⟨0, 99⟩⟩ ⟨⟨0, 99⟩⟩ ⟨⟨0, 199⟩⟩ chainA chainA chainB
    ⟨"addr-ibc1"⟩ [6, 7, 8, 9]
  have g := relay_builders_all_or_nothing ⟨⟨0, 99⟩⟩ ⟨⟨0, 99⟩⟩ ⟨⟨0, 199⟩⟩ chainA chainA chainB
    ⟨"addr-ibc0"⟩ [6, 7, 10, 9]
  ⟨h.1 [6, 7] [9] 8 (.external 8) rfl
      (by
        intro t ht
        simp only [List.mem_cons, List.mem_singleton, List.not_mem_nil, or_false] at ht
        rcases ht with rfl | rfl <;> exact ⟨⟨_, rfl⟩, ⟨_, rfl⟩⟩)
      (Or.inr ⟨⟨_, rfl⟩, rfl⟩),
    g.2.2.2.1 [6, 7] [9] 10 (.external 10) rfl
      (by
        intro t ht
        simp only [List.mem_cons, List.mem_singleton, List.not_mem_nil, or_false] at ht
        rcases ht with rfl | rfl <;> exact ⟨⟨_, rfl⟩, ⟨_, rfl⟩, ⟨_, rfl⟩⟩)
      (Or.inr (Or.inl ⟨⟨_, rfl⟩, rfl⟩))⟩

/-! ## C5: update-client messages are prepended, and only to non-empty lists -/

/-- C5: in RelayPackets and in RelayAcknowledgements, once both delivery lists are built (both
addresses known, both builders without error): a destination whose delivery list is empty
never has SetupHeadersForUpdate invoked for it and is handed the empty list; a destination
whose delivery list is non-empty is handed the update messages made from the synchronizer's
headers (k of them, k = 0 included) followed by the delivery messages in their order, and
the operation then returns no error; Send is reached whenever some list is non-empty and the
synchronizer answers. -/
theorem update_clients_prepended_to_nonempty_lists (st : NaiveStrategy)
    (src dst : ProvableChain) (sp : RelaySequences) (sh : SyncHeadersI)
    (addrD addrS : AccAddress) (hD : dst.GetAddress = .ok addrD)
    (hS : src.GetAddress = .ok addrS) :
    ((relayPackets (sh.GetQueryProofContext src.ChainID) src sp.Src.toList addrD).err = none →
      (relayPackets (sh.GetQueryProofContext dst.ChainID) dst sp.Dst.toList addrS).err = none →
      PrependContract sh src dst addrD addrS
        (relayPackets (sh.GetQueryProofContext src.ChainID) src sp.Src.toList addrD).msgs.toList
        (relayPackets (sh.GetQueryProofContext dst.ChainID) dst sp.Dst.toList addrS).msgs.toList
        (RelayPackets st src dst sp sh)) ∧
    ((relayAcks (sh.GetQueryProofContext dst.ChainID) (sh.GetQueryProofContext src.ChainID)
        dst src sp.Src.toList addrD).err = none →
      (relayAcks (sh.GetQueryProofContext src.ChainID) (sh.GetQueryProofContext dst.ChainID)
        src dst sp.Dst.toList addrS).err = none →
      PrependContract sh src dst addrD addrS
        (relayAcks (sh.GetQueryProofContext dst.ChainID) (sh.GetQueryProofContext src.ChainID)
          dst src sp.Src.toList addrD).msgs.toList
        (relayAcks (sh.GetQueryProofContext src.ChainID) (sh.GetQueryProofContext dst.ChainID)
          src dst sp.Dst.toList addrS).msgs.toList
        (RelayAcknowledgements st src dst sp sh)) :=
  update_clients_prepended_lemma st src dst sp sh addrD addrS hD hS

/-- Witness for C5: endpoint A has sequences 6 and 7 to deliver to B and nothing comes back;
the synchronizer needs one header, and B is handed the update message followed by the two
receive messages. -/
theorem update_clients_prepended_to_nonempty_lists_witness :
    (chainB.GetAddress = .ok ⟨"addr-ibc1"⟩ ∧ chainA.GetAddress = .ok ⟨"addr-ibc0"⟩) ∧
    PrependContract (exampleSync 1) chainA chainB ⟨"addr-ibc1"⟩ ⟨"addr-ibc0"⟩
      (relayPackets ((exampleSync 1).GetQueryProofContext chainA.ChainID) chainA
        (Slice.toList (some [6, 7])) ⟨"addr-ibc1"⟩).msgs.toList
      (relayPackets ((exampleSync 1).GetQueryProofContext chainB.ChainID) chainB
        (Slice.toList (some [])) ⟨"addr-ibc0"⟩).msgs.toList
      (RelayPackets NewNaiveStrategy chainA chainB ⟨some [6, 7], some []⟩ (exampleSync 1)) ∧
    PrependContract (exampleSync 1) chainA chainB ⟨"addr-ibc1"⟩ ⟨"addr-ibc0"⟩
      (relayAcks ((exampleSync 1).GetQueryProofContext chainB.ChainID)
        ((exampleSync 1).GetQueryProofContext chainA.ChainID) chainB chainA
        (Slice.toList (some [6, 7])) ⟨"addr-ibc1"⟩).msgs.toList
      (relayAcks ((exampleSync 1).GetQueryProofContext chainA.ChainID)
        ((exampleSync 1).GetQueryProofContext chainB.ChainID) chainA chainB
        (Slice.toList (some [])) ⟨"addr-ibc0"⟩).msgs.toList
      (RelayAcknowledgements NewNaiveStrategy chainA chainB ⟨some [6, 7], some []⟩
        (exampleSync 1)) ∧
    Event.Send [] [exampleUpdateB, exampleRecv 6, exampleRecv 7] ∈
      (RelayPackets NewNaiveStrategy chainA chainB ⟨some [6, 7], some []⟩ (exampleSync 1)).2 :=
  have h := update_clients_prepended_to_nonempty_lists NewNaiveStrategy chainA chainB
    ⟨some [6, 7], some []⟩ (exampleSync 1) ⟨"addr-ibc1"⟩ ⟨"addr-ibc0"⟩ rfl rfl
  ⟨⟨rfl, rfl⟩, h.1 (by decide) (by decide), h.2 (by decide) (by decide), by decide⟩

/-! ## C6: a failed send is not returned as an error -/

/-- C6, counterexample: endpoint B rejects every submission, so the send of the two receive
messages fails (Success is false after Send), and RelayPackets still returns no error; the
same run of RelayAcknowledgements returns no error either. -/
theorem send_failure_not_returned :
    (Event.Send [] [exampleUpdateB, exampleRecv 6, exampleRecv 7] ∈
        (RelayPackets NewNaiveStrategy chainA chainBRejecting ⟨some [6, 7], some []⟩
          (exampleSync 1)).2 ∧
      (RelayMsgs.Send ⟨some [], some [exampleUpdateB, exampleRecv 6, exampleRecv 7], 0, 0, false⟩
        chainA chainBRejecting).Success = false ∧
      (RelayPackets NewNaiveStrategy chainA chainBRejecting ⟨some [6, 7], some []⟩
        (exampleSync 1)).1 = none) ∧
    (Event.Send [] [exampleUpdateB, exampleAckToB 6] ∈
        (RelayAcknowledgements NewNaiveStrategy chainA chainBRejecting ⟨some [6], some []⟩
          (exampleSync 1)).2 ∧
      (RelayAcknowledgements NewNaiveStrategy chainA chainBRejecting ⟨some [6], some []⟩
        (exampleSync 1)).1 = none) := by
  decide

/-- C6 as amended: whenever RelayPackets or RelayAcknowledgements reaches the send step, with
the lists S and D, it returns no error to its caller, whether the send succeeded or not; its
trace is proof queries and SetupHeadersForUpdate calls, then the Send, then the relayed-count
report lines exactly when the send succeeded; after a failed send (Success false) no relayed
count is reported. -/
theorem send_outcome_only_gates_report (st : NaiveStrategy) (src dst : ProvableChain)
    (sp : RelaySequences) (sh : SyncHeadersI) (S D : List Msg) :
    (Event.Send S D ∈ (RelayPackets st src dst sp sh).2 →
      SendOutcomeContract src dst S D (RelayPackets st src dst sp sh)) ∧
    (Event.Send S D ∈ (RelayAcknowledgements st src dst sp sh).2 →
      SendOutcomeContract src dst S D (RelayAcknowledgements st src dst sp sh)) := by
  constructor
  · intro hin
    rcases RelayPackets_cases st src dst sp sh with ⟨_, hq⟩ |
      ⟨addrD, addrS, hD, hS, h1, h2, _⟩
    · rcases hq _ hin with h | h
      · exact absurd rfl ((Event.isProofQueryOn_not_tail _ _ _ h).2.1 S D)
      · exact absurd rfl ((Event.isProofQueryOn_not_tail _ _ _ h).2.1 S D)
    · rw [RelayPackets_eq st src dst sp sh addrD addrS hD hS h1 h2] at hin ⊢
      exact prependAndSend_send_outcome src dst sh _ _ (relayPackets_queries _ _ _ _ _ _ _ _)
        S D hin
  · intro hin
    rcases RelayAcknowledgements_cases st src dst sp sh with ⟨_, hq⟩ |
      ⟨addrD, addrS, hD, hS, h1, h2, _⟩
    · rcases hq _ hin with h | h
      · exact absurd rfl ((Event.isProofQueryOn_not_tail _ _ _ h).2.1 S D)
      · exact absurd rfl ((Event.isProofQueryOn_not_tail _ _ _ h).2.1 S D)
    · rw [RelayAcknowledgements_eq st src dst sp sh addrD addrS hD hS h1 h2] at hin ⊢
      exact prependAndSend_send_outcome src dst sh _ _
        (relayAcks_queries _ _ _ _ _ _ _ _ _ _ _ _) S D hin

/-- Witness for C6 as amended: the run in which endpoint B rejects the submission, and the
same run against endpoint B accepting it. -/
theorem send_outcome_only_gates_report_witness :
    (Event.Send [] [exampleUpdateB, exampleRecv 6, exampleRecv 7] ∈
        (RelayPackets NewNaiveStrategy chainA chainBRejecting ⟨some [6, 7], some []⟩
          (exampleSync 1)).2 ∧
      SendOutcomeContract chainA chainBRejecting [] [exampleUpdateB, exampleRecv 6, exampleRecv 7]
        (RelayPackets NewNaiveStrategy chainA chainBRejecting ⟨some [6, 7], some []⟩
          (exampleSync 1)) ∧
      SendReports chainA chainBRejecting [] [exampleUpdateB, exampleRecv 6, exampleRecv 7] = []) ∧
    (Event.Send [] [exampleUpdateB, exampleRecv 6, exampleRecv 7] ∈
        (RelayPackets NewNaiveStrategy chainA chainB ⟨some [6, 7], some []⟩ (exampleSync 1)).2 ∧
      SendOutcomeContract chainA chainB [] [exampleUpdateB, exampleRecv 6, exampleRecv 7]
        (RelayPackets NewNaiveStrategy chainA chainB ⟨some [6, 7], some []⟩ (exampleSync 1)) ∧
      SendReports chainA chainB [] [exampleUpdateB, exampleRecv 6, exampleRecv 7] =
        [Event.logPacketsRelayed 2 "ibc0" "transfer" "ibc1" "transfer"]) :=
  ⟨⟨by decide, (send_outcome_only_gates_report NewNaiveStrategy chainA chainBRejecting
      ⟨some [6, 7], some []⟩ (exampleSync 1) []
      [exampleUpdateB, exampleRecv 6, exampleRecv 7]).1 (by decide), by decide⟩,
    ⟨by decide, (send_outcome_only_gates_report NewNaiveStrategy chainA chainB
      ⟨some [6, 7], some []⟩ (exampleSync 1) []
      [exampleUpdateB, exampleRecv 6, exampleRecv 7]).1 (by decide), by decide⟩⟩

/-! ## C7: the relayed count assumes exactly one update message -/

/-- C7, the code at the failing inputs: with two delivery messages and no update message
(k = 0) the send succeeds and the count reported is 1; with one delivery message and k = 0
nothing is reported; with one delivery message and k = 2 the count reported is 2; only for
k = 1 is the count the number of delivery messages. -/
theorem relayed_count_is_length_minus_one :
    ((relayPackets ⟨⟨0, 99⟩⟩ chainA [6, 7] ⟨"addr-ibc1"⟩).msgs.toList.length = 2 ∧
      (RelayPackets NewNaiveStrategy chainA chainB ⟨some [6, 7], some []⟩ (exampleSync 0)).2 =
        (relayPackets ⟨⟨0, 99⟩⟩ chainA [6, 7] ⟨"addr-ibc1"⟩).trace ++
        [Event.SetupHeadersForUpdate Side.src Side.dst,
          Event.Send [] [exampleRecv 6, exampleRecv 7],
          Event.logPacketsRelayed 1 "ibc0" "transfer" "ibc1" "transfer"]) ∧
    ((relayPackets ⟨⟨0, 99⟩⟩ chainA [6] ⟨"addr-ibc1"⟩).msgs.toList.length = 1 ∧
      (RelayPackets NewNaiveStrategy chainA chainB ⟨some [6], some []⟩ (exampleSync 0)).2 =
        (relayPackets ⟨⟨0, 99⟩⟩ chainA [6] ⟨"addr-ibc1"⟩).trace ++
        [Event.SetupHeadersForUpdate Side.src Side.dst, Event.Send [] [exampleRecv 6]]) ∧
    ((RelayPackets NewNaiveStrategy chainA chainB ⟨some [6], some []⟩ (exampleSync 2)).2 =
        (relayPackets ⟨⟨0, 99⟩⟩ chainA [6] ⟨"addr-ibc1"⟩).trace ++
        [Event.SetupHeadersForUpdate Side.src Side.dst,
          Event.Send [] [exampleUpdateB, exampleUpdateB, exampleRecv 6],
          Event.logPacketsRelayed 2 "ibc0" "transfer" "ibc1" "transfer"]) ∧
    ((RelayPackets NewNaiveStrategy chainA chainB ⟨some [6, 7], some []⟩ (exampleSync 1)).2 =
        (relayPackets ⟨⟨0, 99⟩⟩ chainA [6, 7] ⟨"addr-ibc1"⟩).trace ++
        [Event.SetupHeadersForUpdate Side.src Side.dst,
          Event.Send [] [exampleUpdateB, exampleRecv 6, exampleRecv 7],
          Event.logPacketsRelayed 2 "ibc0" "transfer" "ibc1" "transfer"]) := by
  decide

/-! ## C8: the reconciler never yields a partial result -/

end Relayer
